import Mathlib

/-!
# EA Studio modeling core — verification development

Shallow embedding of the diagramming tool's modeling/validation core:

* `src/renderer/studio/modeling/diagramTypes.js` — diagram-type catalog,
  guided-connection resolution;
* `src/renderer/studio/modeling/model.js` — entity normalization;
* `src/renderer/studio/modeling/validate.js` — the structural validator;
* `src/renderer/studio/store.js` — the store actions `setMetadata`,
  `setRegistry`, `revalidate`, `pasteClipboard` and the history stack;
* `src/renderer/studio/impact/impact.js` — impact-analysis traversal.

Modeling conventions:

* JS strings are `String`; a possibly-absent string field is `Option String`
  (`none` = `undefined`/`null`).  JS string truthiness is `truthy`.
* JS numbers appearing as type versions are modeled by `JNum`: `JNum.fin n`
  is a finite number (an integer — every version in the catalogs is an
  integer and the code only tests `Number.isFinite` and strict equality),
  `JNum.nan` a non-finite number.  An absent value is `none`.
* JS `Map` is an association list; `new Map(entries)` makes later entries
  win, hence lookups scan with a fold that keeps the *last* match (`jsGet`).
* JS `Set` is a duplicate-free `List` in insertion order (`setAdd`).
* JS string comparison (`<` on strings, used by the validator's stable sort
  and by `Array.prototype.sort`) compares code units; `strLe` compares the
  character lists.  (They agree on all ASCII data; the catalogs and issue
  codes are ASCII.)
* `Date.toISOString` and `crypto.randomUUID` are nondeterministic; functions
  that use them take the produced strings as parameters (`now`,
  fresh-id supplies).
* Ajv (the JSON-schema library) is an external dependency; a compiled
  attribute schema is modeled as an abstract boolean function on attribute
  maps, and attribute values as strings (their content is never inspected
  by the core outside the schema function and a `name`/`description`
  lookup during legacy migration).
-/

namespace EA

/-! ## JS value helpers -/

/-- A JS number as used for type versions: finite (integer) or not. -/
inductive JNum where
  | fin (n : Int)
  | nan
  deriving DecidableEq, Repr

/-- `Number.isFinite(value)` on a possibly-absent value
(`undefined`/`null` ↦ `none`). -/
def isFiniteNumber : Option JNum → Bool
  | some (.fin _) => true
  | _ => false

/-- JS truthiness of a possibly-absent string. -/
def truthy : Option String → Bool
  | none => false
  | some s => s ≠ ""

/-- Lexicographic `≤` on character lists by code point, mirroring the JS
string comparison used by the validator's sort comparator. -/
def lexLeB : List Char → List Char → Bool
  | [], _ => true
  | _ :: _, [] => false
  | a :: as, b :: bs =>
    if a.toNat < b.toNat then true
    else if b.toNat < a.toNat then false
    else lexLeB as bs

/-- JS `a <= b` on strings. -/
def strLe (a b : String) : Bool := lexLeB a.data b.data

theorem lexLeB_total : ∀ a b : List Char, lexLeB a b = true ∨ lexLeB b a = true := by
  intro a
  induction a with
  | nil => intro b; left; rfl
  | cons x xs ih =>
    intro b
    cases b with
    | nil => right; rfl
    | cons y ys =>
      by_cases h1 : x.toNat < y.toNat
      · left; simp [lexLeB, h1]
      · by_cases h2 : y.toNat < x.toNat
        · right; simp [lexLeB, h2]
        · rcases ih ys with h | h
          · left; simp [lexLeB, h1, h2, h]
          · right; simp [lexLeB, h1, h2, h]

theorem lexLeB_trans : ∀ a b c : List Char, lexLeB a b = true → lexLeB b c = true →
    lexLeB a c = true := by
  intro a
  induction a with
  | nil => intro b c _ _; rfl
  | cons x xs ih =>
    intro b c hab hbc
    cases b with
    | nil => simp [lexLeB] at hab
    | cons y ys =>
      cases c with
      | nil => simp [lexLeB] at hbc
      | cons z zs =>
        simp only [lexLeB] at hab hbc ⊢
        by_cases hxy : x.toNat < y.toNat
        · by_cases hyz : y.toNat < z.toNat
          · have hxz : x.toNat < z.toNat := by omega
            simp [hxz]
          · by_cases hzy : z.toNat < y.toNat
            · simp [hyz, hzy] at hbc
            · have hxz : x.toNat < z.toNat := by omega
              simp [hxz]
        · by_cases hyx : y.toNat < x.toNat
          · simp [hxy, hyx] at hab
          · by_cases hyz : y.toNat < z.toNat
            · have hxz : x.toNat < z.toNat := by omega
              simp [hxz]
            · by_cases hzy : z.toNat < y.toNat
              · simp [hyz, hzy] at hbc
              · have h1 : ¬ x.toNat < z.toNat := by omega
                have h2 : ¬ z.toNat < x.toNat := by omega
                simp [hxy, hyx] at hab
                simp [hyz, hzy] at hbc
                simp [h1, h2]
                exact ih ys zs hab hbc

/-- Association-list lookup with JS `Map` semantics: the most recent
(`last`) binding for a key wins, no binding gives `undefined` (`none`). -/
def jsGet {α : Type} (m : List (String × α)) (k : String) : Option α :=
  m.foldl (fun acc p => if p.1 = k then some p.2 else acc) none

/-- JS `Map.prototype.set`: update an existing key in place, else append. -/
def jsSet {α : Type} (m : List (String × α)) (k : String) (v : α) : List (String × α) :=
  if m.any (fun p => p.1 = k) then m.map (fun p => if p.1 = k then (k, v) else p)
  else m ++ [(k, v)]

/-- JS `Set.prototype.add`: append if not already present. -/
def setAdd (s : List String) (x : String) : List String :=
  if x ∈ s then s else s ++ [x]

/-- `Array.prototype.sort()` with the default (string) comparator:
a stable sort by `strLe`. -/
def sortStrings (l : List String) : List String :=
  List.insertionSort (fun a b => strLe a b = true) l

/-! ## Data model (reactflow nodes/edges as the store keeps them) -/

/-- `data.metadata.template` block (fields the embedded operations read). -/
structure TemplateMeta where
  locked : Bool := false
  overridesEnabled : Bool := false
  deriving DecidableEq, Repr

/-- `data.metadata` of a node or edge.  Fields not listed here
(`eaSourceId`, `eaSnapshotId`, …) are never read by the embedded
operations. -/
structure EntityMeta where
  createdAt : Option String := none
  updatedAt : Option String := none
  version : Option JNum := none
  source : Option String := none
  eaSourceType : Option String := none
  template : Option TemplateMeta := none
  deriving DecidableEq, Repr

/-- Attribute maps (`data.attributes`).  Values are strings; the core only
passes them to the (abstract) schema validator and, in legacy migration,
reads `name`/`description`. -/
def Attrs : Type := List (String × String)

instance : DecidableEq Attrs := inferInstanceAs (DecidableEq (List (String × String)))

instance : Repr Attrs := inferInstanceAs (Repr (List (String × String)))

/-- `node.data`. -/
structure NodeData where
  kind : Option String := none
  componentTypeId : Option String := none
  componentTypeVersion : Option JNum := none
  groupTypeId : Option String := none
  groupTypeVersion : Option JNum := none
  title : Option String := none
  iconKey : Option String := none
  icon : Option String := none
  label : Option String := none
  description : Option String := none
  attributes : Option Attrs := none
  metadata : Option EntityMeta := none
  deriving DecidableEq, Repr

/-- A reactflow node as held by the store.  Layout-only fields
(`width`/`height`/`measured`) are outside the embedded operations' reach
and omitted. -/
structure Node where
  id : String := ""
  type : Option String := none
  parentNode : Option String := none
  extent : Option String := none
  position : Int × Int := (0, 0)
  selected : Bool := false
  data : NodeData := {}
  deriving DecidableEq, Repr

/-- `edge.data`. -/
structure EdgeData where
  kind : Option String := none
  edgeTypeId : Option String := none
  edgeTypeVersion : Option JNum := none
  description : Option String := none
  metadata : Option EntityMeta := none
  deriving DecidableEq, Repr

/-- A reactflow edge as held by the store. -/
structure Edge where
  id : String := ""
  source : String := ""
  target : String := ""
  type : Option String := none
  label : Option String := none
  selected : Bool := false
  data : EdgeData := {}
  deriving DecidableEq, Repr

/-! ## Type registry (the `RegistryState` consumed by the validator) -/

/-- A component type definition from the registry. -/
structure ComponentType where
  typeId : String := ""
  displayName : String := ""
  category : String := ""
  iconKey : String := ""
  allowedParentTypes : List String := []
  allowedChildTypes : List String := []
  allowedEdgeTypes : List String := []
  /-- The compiled `requiredAttributes` JSON schema, abstracted to the
  boolean test Ajv performs; `none` models an absent schema (for which
  `compileAttributeValidator` returns an always-failing validator). -/
  requiredAttributes : Option (Attrs → Bool) := none
  version : Option JNum := none

structure GroupType where
  groupTypeId : String := ""
  displayName : String := ""
  allowedChildGroupTypes : List String := []
  allowedParentGroupTypes : List String := []
  allowedChildComponentTypes : List String := []
  version : Option JNum := none
  deriving DecidableEq, Repr

structure EdgeType where
  edgeTypeId : String := ""
  displayName : String := ""
  version : Option JNum := none
  deriving DecidableEq, Repr

/-- The registry state (`status` is `"loading"`, `"ready"` or `"error"`). -/
structure Registry where
  status : String := "loading"
  message : Option String := none
  componentTypesById : List (String × ComponentType) := []
  groupTypesById : List (String × GroupType) := []
  edgeTypesById : List (String × EdgeType) := []
  componentTypes : List ComponentType := []

/-! ## `modeling/diagramTypes.js` -/

def DIAGRAM_TYPE_IDS : List String :=
  ["capability-map", "application-landscape", "technology-architecture",
   "programme-portfolio", "cross-domain-traceability"]

namespace EA_GROUP_TYPES

def CAP_CATEGORY : String := "ea.catDept"
def CAP_CAPABILITY : String := "ea.capability"
def CAP_SUBCAPABILITY : String := "ea.subCapability"
def APP_CATEGORY : String := "app.catDept"
def PROG_CATEGORY : String := "prog.catDept"
def PROG_PROGRAMME : String := "prog.programme"
def TECH_LAYER_INFRA : String := "tech.layer.infrastructure"
def TECH_LAYER_HOSTING : String := "tech.layer.hostingOps"
def TECH_LAYER_PLATFORM : String := "tech.layer.platformServices"
def TECH_GROUP : String := "tech.group"

end EA_GROUP_TYPES

namespace EA_COMPONENT_TYPES

def BUSINESS_PROCESS : String := "ea.businessProcess"
def APPLICATION : String := "app.application"
def PROGRAMME_PROJECT : String := "prog.project"
def TECH_ELEMENT : String := "tech.element"

end EA_COMPONENT_TYPES

namespace EA_EDGE_TYPES

def PROCESS_TO_APP : String := "rel.processToApp"
def PROGRAMME_TO_CAPABILITY : String := "rel.programmeToCapability"
def PROGRAMME_TO_APPLICATION : String := "rel.programmeToApplication"
def APPLICATION_TO_TECH : String := "rel.appToTechnology"

end EA_EDGE_TYPES

/-- `Object.values(EA_EDGE_TYPES)`, in declaration order. -/
def guidedEdgeTypeIds : List String :=
  [EA_EDGE_TYPES.PROCESS_TO_APP, EA_EDGE_TYPES.PROGRAMME_TO_CAPABILITY,
   EA_EDGE_TYPES.PROGRAMME_TO_APPLICATION, EA_EDGE_TYPES.APPLICATION_TO_TECH]

/-- `isKnownDiagramType` (the `DIAGRAM_TYPES` table's ids are exactly
`DIAGRAM_TYPE_IDS`). -/
def isKnownDiagramType (diagramTypeId : String) : Bool :=
  DIAGRAM_TYPE_IDS.contains diagramTypeId

/-- The result of `resolveGuidedConnection`. -/
structure GuidedResult where
  edgeTypeId : String
  label : String
  deriving DecidableEq, Repr

/-- `new Map(nodes.map((n) => [n.id, n]))`. -/
def nodeMapOf (nodes : List Node) : List (String × Node) :=
  nodes.map (fun n => (n.id, n))

/-- `resolveGuidedConnection({diagramTypeId, nodes, sourceId, targetId})`. -/
def resolveGuidedConnection (diagramTypeId : Option String) (nodes : List Node)
    (sourceId targetId : String) : Option GuidedResult :=
  if ¬ truthy diagramTypeId ∨ sourceId = "" ∨ targetId = "" then none
  else
    let nodeById := nodeMapOf nodes
    match jsGet nodeById sourceId, jsGet nodeById targetId with
    | some sourceNode, some targetNode =>
      let sKind := sourceNode.type
      let tKind := targetNode.type
      let sGroupType := if sourceNode.data.kind = some "group" then sourceNode.data.groupTypeId else none
      let tGroupType := if targetNode.data.kind = some "group" then targetNode.data.groupTypeId else none
      let sCompType := if sourceNode.data.kind = some "component" then sourceNode.data.componentTypeId else none
      let tCompType := if targetNode.data.kind = some "component" then targetNode.data.componentTypeId else none
      let isProgramme := sKind = some "group" ∧ sGroupType = some EA_GROUP_TYPES.PROG_PROGRAMME
      let isCapabilityGroup := tKind = some "group" ∧
        (tGroupType = some EA_GROUP_TYPES.CAP_CAPABILITY ∨ tGroupType = some EA_GROUP_TYPES.CAP_SUBCAPABILITY)
      if sKind = some "component" ∧ sCompType = some EA_COMPONENT_TYPES.BUSINESS_PROCESS ∧
          tKind = some "component" ∧ tCompType = some EA_COMPONENT_TYPES.APPLICATION then
        some ⟨EA_EDGE_TYPES.PROCESS_TO_APP, "Process → Application"⟩
      else if isProgramme ∧ tKind = some "component" ∧ tCompType = some EA_COMPONENT_TYPES.APPLICATION then
        some ⟨EA_EDGE_TYPES.PROGRAMME_TO_APPLICATION, "Programme → Application"⟩
      else if isProgramme ∧ isCapabilityGroup then
        some ⟨EA_EDGE_TYPES.PROGRAMME_TO_CAPABILITY, "Programme → Capability"⟩
      else if sKind = some "component" ∧ sCompType = some EA_COMPONENT_TYPES.APPLICATION ∧
          tKind = some "component" ∧ tCompType = some EA_COMPONENT_TYPES.TECH_ELEMENT then
        some ⟨EA_EDGE_TYPES.APPLICATION_TO_TECH, "Application → Technology"⟩
      else none
    | _, _ => none

/-- `computeAllowedTargetIds({diagramTypeId, nodes, sourceId})`; the JS
`Set` is a duplicate-free insertion-ordered list. -/
def computeAllowedTargetIds (diagramTypeId : Option String) (nodes : List Node)
    (sourceId : String) : List String :=
  if ¬ truthy diagramTypeId ∨ sourceId = "" then []
  else
    nodes.foldl
      (fun allowed node =>
        if node.id = "" ∨ node.id = sourceId then allowed
        else if (resolveGuidedConnection diagramTypeId nodes sourceId node.id).isSome then
          setAdd allowed node.id
        else allowed)
      []

/-! ## `modeling/model.js` — normalization and the attribute validator -/

/-- `compileAttributeValidator(schema).validate(value)`: an absent (or
non-object) schema yields an always-failing validator; otherwise the
compiled Ajv test runs (abstracted as the schema's boolean function). -/
def compileAttributeValidate (schema : Option (Attrs → Bool)) (value : Attrs) : Bool :=
  match schema with
  | none => false
  | some f => f value

/-- `normalizeNode(registry, node)`.  All `nowIso()` calls within one
operation are modeled by the single `now` parameter. -/
def normalizeNode (now : String) (registry : Registry) (node : Node) : Node :=
  if registry.status ≠ "ready" then node
  else
    let data := node.data
    let createdAt0 := data.metadata.bind (fun m => m.createdAt)
    let updatedAt0 := data.metadata.bind (fun m => m.updatedAt)
    let version0 := data.metadata.bind (fun m => m.version)
    let template0 := data.metadata.bind (fun m => m.template)
    let freshMeta : EntityMeta :=
      { createdAt := some (createdAt0.getD now)
        updatedAt := some ((updatedAt0.orElse (fun _ => createdAt0)).getD now)
        version := some (version0.getD (.fin 1))
        template := template0 }
    if node.type = some "component" ∧ data.kind = some "component" ∧ truthy data.componentTypeId then
      { node with data := { data with
          attributes := some (data.attributes.getD [])
          metadata := some freshMeta } }
    else if node.type = some "group" ∧ data.kind = some "group" ∧ truthy data.groupTypeId then
      { node with data := { data with
          attributes := some (data.attributes.getD [("name", data.title.getD "Group")])
          metadata := some freshMeta } }
    else
      -- Legacy migration from a generic node.
      let legacyTypeId : Option String :=
        if (jsGet registry.componentTypesById "legacy.unknown").isSome then some "legacy.unknown" else none
      let migratedTypeId :=
        legacyTypeId.getD (((registry.componentTypes.head?).map (fun t => t.typeId)).getD "legacy.unknown")
      let migratedType := jsGet registry.componentTypesById migratedTypeId
      { node with
        type := some "component"
        data :=
          { kind := some "component"
            componentTypeId := some migratedTypeId
            componentTypeVersion := migratedType.bind (fun t => t.version)
            iconKey := some (data.iconKey.getD (data.icon.getD "LG"))
            attributes := some
              [("name", ((data.attributes.bind (fun a => jsGet a "name")).orElse
                  (fun _ => data.label)).getD "Legacy Component"),
               ("description", ((data.attributes.bind (fun a => jsGet a "description")).orElse
                  (fun _ => data.description)).getD "")]
            metadata := some
              { createdAt := some (createdAt0.getD now)
                updatedAt := some ((updatedAt0.orElse (fun _ => createdAt0)).getD now)
                version := some (version0.getD (.fin 1)) } } }

/-- `normalizeEdge(edge)`. -/
def normalizeEdge (now : String) (edge : Edge) : Edge :=
  let data := edge.data
  let createdAt := (data.metadata.bind (fun m => m.createdAt)).getD now
  { edge with
    type := some (edge.type.getD "default")
    data := { data with
      kind := some (data.kind.getD "relationship")
      edgeTypeId := some (data.edgeTypeId.getD "rel.dependsOn")
      edgeTypeVersion := data.edgeTypeVersion
      metadata := some
        { createdAt := some createdAt
          updatedAt := some ((data.metadata.bind (fun m => m.updatedAt)).getD createdAt)
          version := some ((data.metadata.bind (fun m => m.version)).getD (.fin 1)) } } }

/-! ## `modeling/validate.js` -/

structure IssueTarget where
  /-- `"diagram"`, `"node"` or `"edge"` (every push site sets it). -/
  kind : String
  id : Option String := none
  deriving DecidableEq, Repr

structure Issue where
  severity : String
  code : String
  message : String
  target : IssueTarget
  deriving DecidableEq, Repr

def err (code message : String) (target : IssueTarget) : Issue :=
  ⟨"ERROR", code, message, target⟩

def warn (code message : String) (target : IssueTarget) : Issue :=
  ⟨"WARNING", code, message, target⟩

def diagramTarget : IssueTarget := ⟨"diagram", none⟩

def nodeTarget (id : String) : IssueTarget := ⟨"node", some id⟩

def edgeTarget (id : String) : IssueTarget := ⟨"edge", some id⟩

/-- `severityRank[e.severity] ?? 9`. -/
def severityRank (s : String) : Nat :=
  if s = "ERROR" then 0 else if s = "WARNING" then 1 else if s = "INFO" then 2 else 9

/-- The sort key the validator hands to `stableSortBy`:
`` `${kind}:${id ?? ''}:${rank}:${code}` ``. -/
def issueKey (e : Issue) : String :=
  e.target.kind ++ ":" ++ (e.target.id.getD "") ++ ":" ++
    toString (severityRank e.severity) ++ ":" ++ e.code

def issueLe (a b : Issue) : Prop := strLe (issueKey a) (issueKey b) = true

instance : DecidableRel issueLe :=
  fun a b => inferInstanceAs (Decidable (strLe (issueKey a) (issueKey b) = true))

instance : IsTotal Issue issueLe :=
  ⟨fun a b => lexLeB_total (issueKey a).data (issueKey b).data⟩

instance : IsTrans Issue issueLe :=
  ⟨fun _ _ _ hab hbc => lexLeB_trans _ _ _ hab hbc⟩

/-- `stableSortBy(arr, keyFn)` instantiated at the validator's key: a
stable sort by string comparison of `issueKey` (insertion sort realises
the unique stable order of the JS comparator-based stable sort). -/
def stableSortBy (issues : List Issue) : List Issue :=
  List.insertionSort issueLe issues

/-- Render a `JNum` into an interpolated message. -/
def jnumStr : JNum → String
  | .fin n => toString n
  | .nan => "NaN"

/-- `node.type === 'group' || node.data?.kind === 'group'`. -/
def isGroupNode (n : Node) : Bool :=
  n.type = some "group" ∨ n.data.kind = some "group"

/-- `countChildrenByParentId(nodes).get(pid) ?? []`: the source
accumulates a `Map` from (truthy) parent id to the list of its children
in node-list order; looking one parent up with default `[]` is this
filter (pid `""` is never a key since falsy parents are skipped). -/
def childrenOf (nodes : List Node) (pid : String) : List Node :=
  nodes.filter (fun n =>
    match n.parentNode with
    | some p => p ≠ "" ∧ p = pid
    | none => false)

/-- `findTopLevelGroups(nodes, groupTypeId)`. -/
def findTopLevelGroups (nodes : List Node) (groupTypeId : String) : List Node :=
  nodes.filter (fun n =>
    isGroupNode n ∧ n.data.groupTypeId = some groupTypeId ∧ ¬ truthy n.parentNode)

/-- The registry-failure check. -/
def registryIssues (registry : Registry) : List Issue :=
  if registry.status = "error" then
    [err "REGISTRY_MISSING"
      "Component Type Registry is not loaded. Component creation is disabled." diagramTarget]
  else []

/-- Phase H: diagram type is mandatory. -/
def diagramTypeIssues (diagramTypeId : Option String) : List Issue :=
  match diagramTypeId with
  | none =>
    [err "DIAGRAM_TYPE_MISSING"
      "Diagram type is not set. Select a diagram type to enable modeling." diagramTarget]
  | some d =>
    if d = "" then
      [err "DIAGRAM_TYPE_MISSING"
        "Diagram type is not set. Select a diagram type to enable modeling." diagramTarget]
    else if isKnownDiagramType d then []
    else [err "DIAGRAM_TYPE_UNKNOWN" s!"Unknown diagram type: {d}." diagramTarget]

/-- The group branch of the per-node loop. -/
def groupNodeIssues (registryReady : Bool) (registry : Registry) (node : Node) : List Issue :=
  let data := node.data
  let groupTypeId := data.groupTypeId
  let groupType := if registryReady then groupTypeId.bind (jsGet registry.groupTypesById) else none
  let unknownPart : List Issue :=
    if ¬ truthy groupTypeId ∨ groupType = none then
      [err "GROUP_UNKNOWN_TYPE"
        (match groupTypeId with
         | some g => if g ≠ "" then s!"Unknown groupTypeId: {g}" else "Group is missing groupTypeId."
         | none => "Group is missing groupTypeId.")
        (nodeTarget node.id)]
    else []
  let versionPart : List Issue :=
    match groupTypeId, groupType with
    | some gid, some gt =>
      if gid = "" then []
      else
        let dn := gt.displayName
        match data.groupTypeVersion with
        | none =>
          [err "GROUP_TYPE_VERSION_MISSING"
            s!"Group is missing groupTypeVersion for {dn} ({gid})." (nodeTarget node.id)]
        | some iv =>
          if ¬ isFiniteNumber (some iv) then
            [err "GROUP_TYPE_VERSION_INVALID"
              s!"Group groupTypeVersion must be a number for {gid}." (nodeTarget node.id)]
          else if ¬ isFiniteNumber gt.version then
            [err "GROUP_TYPE_REGISTRY_VERSION_INVALID"
              s!"Registry group type {gid} is missing a valid version number." diagramTarget]
          else if some iv ≠ gt.version then
            let ivs := jnumStr iv
            let rvs := (gt.version.map jnumStr).getD "undefined"
            [warn "GROUP_TYPE_VERSION_MISMATCH"
              s!"Group type version mismatch for {dn} ({gid}): instance v{ivs} is locked; registry is v{rvs}."
              (nodeTarget node.id)]
          else []
    | _, _ => []
  unknownPart ++ versionPart

/-- The component branch of the per-node loop. -/
def componentNodeIssues (registryReady : Bool) (registry : Registry) (node : Node) : List Issue :=
  let data := node.data
  let componentTypeId := data.componentTypeId
  let componentType :=
    if registryReady then componentTypeId.bind (jsGet registry.componentTypesById) else none
  match componentTypeId, componentType with
  | some cid, some ct =>
    if cid = "" then
      [err "COMPONENT_UNKNOWN_TYPE" "Component is missing componentTypeId." (nodeTarget node.id)]
    else
      let dn := ct.displayName
      let versionPart : List Issue :=
        match data.componentTypeVersion with
        | none =>
          [err "COMPONENT_TYPE_VERSION_MISSING"
            s!"Component is missing componentTypeVersion for {dn} ({cid})." (nodeTarget node.id)]
        | some iv =>
          if ¬ isFiniteNumber (some iv) then
            [err "COMPONENT_TYPE_VERSION_INVALID"
              s!"Component componentTypeVersion must be a number for {cid}." (nodeTarget node.id)]
          else if ¬ isFiniteNumber ct.version then
            [err "COMPONENT_TYPE_REGISTRY_VERSION_INVALID"
              s!"Registry component type {cid} is missing a valid version number." diagramTarget]
          else if some iv ≠ ct.version then
            let ivs := jnumStr iv
            let rvs := (ct.version.map jnumStr).getD "undefined"
            [warn "COMPONENT_TYPE_VERSION_MISMATCH"
              s!"Component type version mismatch for {dn} ({cid}): instance v{ivs} is locked; registry is v{rvs}."
              (nodeTarget node.id)]
          else []
      let attrPart : List Issue :=
        -- The detailed Ajv error text is external; `formatAjvErrors`'
        -- fallback line stands in for it in the message.
        if ¬ compileAttributeValidate ct.requiredAttributes (data.attributes.getD []) then
          [err "COMPONENT_ATTRIBUTES_INVALID"
            s!"Invalid attributes for {dn}: Schema validation failed." (nodeTarget node.id)]
        else []
      versionPart ++ attrPart
  | some cid, none =>
    [err "COMPONENT_UNKNOWN_TYPE"
      (if cid ≠ "" then s!"Unknown componentTypeId: {cid}" else "Component is missing componentTypeId.")
      (nodeTarget node.id)]
  | none, _ =>
    [err "COMPONENT_UNKNOWN_TYPE" "Component is missing componentTypeId." (nodeTarget node.id)]

/-- One iteration of the first per-node loop. -/
def nodeIssue (registryReady : Bool) (registry : Registry) (node : Node) : List Issue :=
  if node.id = "" then []
  else if isGroupNode node then groupNodeIssues registryReady registry node
  else if ¬ (node.type = some "component" ∧ node.data.kind = some "component") then
    [err "NODE_UNTYPED" "Node is not a typed component (missing kind/componentTypeId)."
      (nodeTarget node.id)]
  else componentNodeIssues registryReady registry node

/-- One iteration of the nesting-rules loop. -/
def nestingIssue (registryReady : Bool) (registry : Registry)
    (nodeById : List (String × Node)) (node : Node) : List Issue :=
  if node.id = "" then []
  else
    match node.parentNode with
    | none => []
    | some parentId =>
      if parentId = "" then []
      else
        match jsGet nodeById parentId with
        | none =>
          [err "GROUP_MISSING_PARENT" s!"Node references missing parent group: {parentId}"
            (nodeTarget node.id)]
        | some parent =>
          let parentData := parent.data
          if ¬ (parent.type = some "group" ∧ parentData.kind = some "group") then
            [err "GROUP_INVALID_PARENT" "Nodes can only be nested within groups."
              (nodeTarget node.id)]
          else
            let parentGroupType :=
              if registryReady then parentData.groupTypeId.bind (jsGet registry.groupTypesById)
              else none
            match parentGroupType with
            | none => []
            | some pgt =>
              let data := node.data
              if isGroupNode node then
                let childGroupType :=
                  if registryReady then data.groupTypeId.bind (jsGet registry.groupTypesById)
                  else none
                let allowedByParent :=
                  match data.groupTypeId with
                  | some g => pgt.allowedChildGroupTypes.contains g
                  | none => false
                let allowedByChild :=
                  match childGroupType, parentData.groupTypeId with
                  | some cgt, some pg => cgt.allowedParentGroupTypes.contains pg
                  | _, _ => false
                if !allowedByParent || !allowedByChild then
                  let pn := pgt.displayName
                  let cn := ((childGroupType.map (fun t => t.displayName)).orElse
                    (fun _ => data.groupTypeId)).getD "undefined"
                  [err "GROUP_NESTING_INVALID"
                    s!"Invalid group nesting: {pn} cannot contain {cn}." (nodeTarget node.id)]
                else []
              else
                match data.componentTypeId with
                | none => []
                | some cid =>
                  if cid = "" then []
                  else if ¬ pgt.allowedChildComponentTypes.contains cid then
                    let pn := pgt.displayName
                    [err "GROUP_CHILD_TYPE_INVALID"
                      s!"Invalid nesting: {pn} cannot contain component type {cid}."
                      (nodeTarget node.id)]
                  else []

/-- `node.parentNode ? nodeById.get(node.parentNode) : null`. -/
def parentLookup (nodeById : List (String × Node)) (node : Node) : Option Node :=
  match node.parentNode with
  | some p => if p = "" then none else jsGet nodeById p
  | none => none

/-- `!parent || parent.data?.groupTypeId !== g`. -/
def parentIsNotGroupType (parent : Option Node) (g : String) : Bool :=
  match parent with
  | some p => p.data.groupTypeId ≠ some g
  | none => true

/-- One iteration of the Phase-H structural-semantics loop (runs only for
known diagram types). -/
def structuralIssue (nodeById : List (String × Node)) (diagramTypeId : String)
    (node : Node) : List Issue :=
  if node.id = "" then []
  else
    let isGroup := isGroupNode node
    let groupTypeId := if isGroup then node.data.groupTypeId else none
    let compTypeId := if ¬ isGroup then node.data.componentTypeId else none
    let parent := parentLookup nodeById node
    (if groupTypeId = some EA_GROUP_TYPES.CAP_CATEGORY ∧ truthy node.parentNode then
      [err "CAP_CATEGORY_PARENT_INVALID"
        "Category / Department must be top-level (cannot be nested)." (nodeTarget node.id)]
     else []) ++
    (if groupTypeId = some EA_GROUP_TYPES.CAP_CAPABILITY ∧
        parentIsNotGroupType parent EA_GROUP_TYPES.CAP_CATEGORY then
      [err "CAPABILITY_PARENT_INVALID"
        "Capability must be nested under a Category / Department." (nodeTarget node.id)]
     else []) ++
    (if groupTypeId = some EA_GROUP_TYPES.CAP_SUBCAPABILITY ∧
        parentIsNotGroupType parent EA_GROUP_TYPES.CAP_CAPABILITY then
      [err "SUBCAPABILITY_PARENT_INVALID"
        "Sub-Capability must be nested under a Capability." (nodeTarget node.id)]
     else []) ++
    (if compTypeId = some EA_COMPONENT_TYPES.BUSINESS_PROCESS ∧
        parentIsNotGroupType parent EA_GROUP_TYPES.CAP_SUBCAPABILITY then
      [err "BUSINESS_PROCESS_PARENT_INVALID"
        "Business Process must be nested under a Sub-Capability." (nodeTarget node.id)]
     else []) ++
    (if groupTypeId = some EA_GROUP_TYPES.APP_CATEGORY ∧ truthy node.parentNode then
      [err "APP_CATEGORY_PARENT_INVALID"
        "Application Category / Department must be top-level (cannot be nested)."
        (nodeTarget node.id)]
     else []) ++
    (if compTypeId = some EA_COMPONENT_TYPES.APPLICATION ∧
        diagramTypeId = "application-landscape" ∧
        parentIsNotGroupType parent EA_GROUP_TYPES.APP_CATEGORY then
      [err "APPLICATION_PARENT_INVALID"
        "Applications must be nested under a Category / Department in Application Landscape diagrams."
        (nodeTarget node.id)]
     else []) ++
    (if groupTypeId = some EA_GROUP_TYPES.PROG_CATEGORY ∧ truthy node.parentNode then
      [err "PROG_CATEGORY_PARENT_INVALID"
        "Programme Category / Department must be top-level (cannot be nested)."
        (nodeTarget node.id)]
     else []) ++
    (if groupTypeId = some EA_GROUP_TYPES.PROG_PROGRAMME ∧
        parentIsNotGroupType parent EA_GROUP_TYPES.PROG_CATEGORY then
      [err "PROGRAMME_PARENT_INVALID"
        "Programme must be nested under a Category / Department." (nodeTarget node.id)]
     else []) ++
    (if compTypeId = some EA_COMPONENT_TYPES.PROGRAMME_PROJECT ∧
        parentIsNotGroupType parent EA_GROUP_TYPES.PROG_PROGRAMME then
      [err "PROJECT_PARENT_INVALID"
        "Project must be nested under a Programme." (nodeTarget node.id)]
     else [])

/-- One iteration of the cardinality loop (capability map rules). -/
def cardinalityIssue (nodes : List Node) (node : Node) : List Issue :=
  if node.id = "" then []
  else if ¬ isGroupNode node then []
  else
    let groupTypeId := node.data.groupTypeId
    let children := childrenOf nodes node.id
    (if groupTypeId = some EA_GROUP_TYPES.CAP_CATEGORY then
      let capCount := (children.filter (fun c =>
        isGroupNode c ∧ c.data.groupTypeId = some EA_GROUP_TYPES.CAP_CAPABILITY)).length
      if capCount > 5 then
        [err "CAP_CATEGORY_MAX_CHILDREN"
          "Category / Department can contain at most 5 Capabilities." (nodeTarget node.id)]
      else if capCount = 0 then
        [warn "CAP_CATEGORY_MIN_CHILDREN"
          "Category / Department has no Capabilities. Add at least 1." (nodeTarget node.id)]
      else []
     else []) ++
    (if groupTypeId = some EA_GROUP_TYPES.CAP_CAPABILITY then
      let subCount := (children.filter (fun c =>
        isGroupNode c ∧ c.data.groupTypeId = some EA_GROUP_TYPES.CAP_SUBCAPABILITY)).length
      if subCount > 3 then
        [err "CAPABILITY_MAX_CHILDREN"
          "Capability can contain at most 3 Sub-Capabilities." (nodeTarget node.id)]
      else if subCount = 0 then
        [warn "CAPABILITY_MIN_CHILDREN"
          "Capability has no Sub-Capabilities. Add at least 1." (nodeTarget node.id)]
      else []
     else []) ++
    (if groupTypeId = some EA_GROUP_TYPES.CAP_SUBCAPABILITY then
      let procCount := (children.filter (fun c =>
        c.type = some "component" ∧ c.data.kind = some "component" ∧
          c.data.componentTypeId = some EA_COMPONENT_TYPES.BUSINESS_PROCESS)).length
      if procCount > 2 then
        [err "SUBCAPABILITY_MAX_CHILDREN"
          "Sub-Capability can contain at most 2 Business Processes." (nodeTarget node.id)]
      else if procCount = 0 then
        [warn "SUBCAPABILITY_MIN_CHILDREN"
          "Sub-Capability has no Business Processes. Add at least 1." (nodeTarget node.id)]
      else []
     else []) ++
    (if groupTypeId = some EA_GROUP_TYPES.PROG_PROGRAMME then
      let projectCount := (children.filter (fun c =>
        c.type = some "component" ∧ c.data.kind = some "component" ∧
          c.data.componentTypeId = some EA_COMPONENT_TYPES.PROGRAMME_PROJECT)).length
      if projectCount > 3 then
        [err "PROGRAMME_MAX_PROJECTS"
          "Programme can contain at most 3 Projects." (nodeTarget node.id)]
      else []
     else [])

/-- The per-lane half of the Technology Architecture layer checks. -/
def techLaneIssues (nodes : List Node) (laneId : String) : List Issue :=
  (findTopLevelGroups nodes laneId).flatMap (fun lane =>
    let laneChildren := childrenOf nodes lane.id
    let directElements := (laneChildren.filter (fun c =>
      c.type = some "component" ∧
        c.data.componentTypeId = some EA_COMPONENT_TYPES.TECH_ELEMENT)).length
    let directGroups := (laneChildren.filter (fun c =>
      isGroupNode c ∧ c.data.groupTypeId = some EA_GROUP_TYPES.TECH_GROUP)).length
    (if directElements > 3 then
      [err "TECH_LANE_MAX_ELEMENTS"
        "Each technology layer can contain at most 3 elements at the top level."
        (nodeTarget lane.id)]
     else []) ++
    (if directGroups > 3 then
      [err "TECH_LANE_MAX_GROUPS"
        "Each technology layer can contain at most 3 groups at the top level."
        (nodeTarget lane.id)]
     else []))

/-- Technology Architecture: the 3 fixed top-level layers must exist. -/
def techLayerIssues (nodes : List Node) : List Issue :=
  let infra := findTopLevelGroups nodes EA_GROUP_TYPES.TECH_LAYER_INFRA
  let hosting := findTopLevelGroups nodes EA_GROUP_TYPES.TECH_LAYER_HOSTING
  let platform := findTopLevelGroups nodes EA_GROUP_TYPES.TECH_LAYER_PLATFORM
  (if infra.length ≠ 1 ∨ hosting.length ≠ 1 ∨ platform.length ≠ 1 then
    [err "TECH_LAYERS_MISSING"
      "Technology Architecture must contain exactly 3 top-level layers: Infrastructure, Application Hosting & Ops, Platform Services."
      diagramTarget]
   else []) ++
  techLaneIssues nodes EA_GROUP_TYPES.TECH_LAYER_INFRA ++
  techLaneIssues nodes EA_GROUP_TYPES.TECH_LAYER_HOSTING ++
  techLaneIssues nodes EA_GROUP_TYPES.TECH_LAYER_PLATFORM

/-- The `while (cur?.parentNode)` ancestor walk for the cross-layer rule.
The fuel `nodes.length + 1` covers every acyclic parent chain; on a
cyclic chain the source itself never terminates, so no finite behavior
is misrepresented. -/
def ancestorWalk (nodeById : List (String × Node)) : Nat → Node → List Node
  | 0, _ => []
  | fuel + 1, cur =>
    match cur.parentNode with
    | none => []
    | some p =>
      if p = "" then []
      else
        match jsGet nodeById p with
        | none => []
        | some parent => parent :: ancestorWalk nodeById fuel parent

/-- The edge loop's pinned-version chain (the same `MISSING` / `INVALID`
/ registry-`INVALID` / `MISMATCH` cascade the node checks use). -/
def edgeVersionIssues (g : String) (edgeType : EdgeType) (edge : Edge) : List Issue :=
  match edge.data.edgeTypeVersion with
  | none =>
    [err "EDGE_TYPE_VERSION_MISSING"
      s!"Edge is missing edgeTypeVersion for {g}." (edgeTarget edge.id)]
  | some iv =>
    if ¬ isFiniteNumber (some iv) then
      [err "EDGE_TYPE_VERSION_INVALID"
        s!"Edge edgeTypeVersion must be a number for {g}." (edgeTarget edge.id)]
    else if ¬ isFiniteNumber edgeType.version then
      [err "EDGE_TYPE_REGISTRY_VERSION_INVALID"
        s!"Registry edge type {g} is missing a valid version number." diagramTarget]
    else if some iv ≠ edgeType.version then
      let ivs := jnumStr iv
      let rvs := (edgeType.version.map jnumStr).getD "undefined"
      [warn "EDGE_TYPE_VERSION_MISMATCH"
        s!"Edge type version mismatch for {g}: instance v{ivs} is locked; registry is v{rvs}."
        (edgeTarget edge.id)]
    else []

/-- The guided branch of the edge loop: semantic validation plus the
Technology-Architecture cross-layer rule. -/
def edgeGuidedTail (nodeById : List (String × Node)) (nodes : List Node)
    (diagramTypeId : Option String) (g : String) (edge : Edge) (target : Node) : List Issue :=
  let guided := resolveGuidedConnection diagramTypeId nodes edge.source edge.target
  (if guided = none ∨ guided.map (fun r => r.edgeTypeId) ≠ some g then
    [err "GUIDED_EDGE_INVALID"
      "This relationship is not valid for the selected endpoints in this diagram type."
      (edgeTarget edge.id)]
   else []) ++
  (if diagramTypeId = some "technology-architecture" ∧
      g = EA_EDGE_TYPES.APPLICATION_TO_TECH then
    let targetAncestors := ancestorWalk nodeById (nodes.length + 1) target
    let targetLane := targetAncestors.find? (fun n =>
      match n.data.groupTypeId with
      | some gt => gt.startsWith "tech.layer."
      | none => false)
    match targetLane with
    | none =>
      [err "TECH_EDGE_TARGET_NOT_IN_LANE"
        "Application → Technology edges must target a Technology Element placed inside a technology layer swimlane."
        (edgeTarget edge.id)]
    | some _ => []
   else [])

/-- The back-compat / generic branch of the edge loop. -/
def edgeLegacyTail (registry : Registry) (g : String) (edge : Edge)
    (source target : Node) : List Issue :=
  let sData := source.data
  let tData := target.data
  let sIsComponent := source.type = some "component" ∧ sData.kind = some "component"
  let tIsComponent := target.type = some "component" ∧ tData.kind = some "component"
  if ¬ sIsComponent ∨ ¬ tIsComponent then
    [err "EDGE_ENDPOINT_NOT_COMPONENT"
      "Legacy edges can only connect typed components (not groups)."
      (edgeTarget edge.id)]
  else
    -- Note: these two lookups bypass the readiness check in the source.
    match sData.componentTypeId.bind (jsGet registry.componentTypesById),
        tData.componentTypeId.bind (jsGet registry.componentTypesById) with
    | some sType, some tType =>
      let sn := sType.displayName
      let tn := tType.displayName
      (if ¬ sType.allowedEdgeTypes.contains g ∨
          ¬ tType.allowedEdgeTypes.contains g then
        [err "EDGE_TYPE_NOT_ALLOWED"
          s!"Edge type {g} is not allowed between {sn} and {tn}."
          (edgeTarget edge.id)]
       else []) ++
      (if sType.allowedChildTypes ≠ [] ∨ tType.allowedParentTypes ≠ [] then
        if ¬ sType.allowedChildTypes.contains tType.typeId ∨
            ¬ tType.allowedParentTypes.contains sType.typeId then
          [err "EDGE_ENDPOINTS_INCOMPATIBLE"
            s!"Invalid relationship: {sn} cannot connect to {tn}."
            (edgeTarget edge.id)]
        else []
       else [])
    | _, _ => []

/-- One iteration of the edge-compatibility loop. -/
def edgeIssue (registry : Registry) (registryReady : Bool)
    (nodeById : List (String × Node)) (nodes : List Node)
    (diagramTypeId : Option String) (edge : Edge) : List Issue :=
  if edge.id = "" then []
  else
    match jsGet nodeById edge.source, jsGet nodeById edge.target with
    | some source, some target =>
      let sData := source.data
      let tData := target.data
      let sIsComponent := source.type = some "component" ∧ sData.kind = some "component"
      let tIsComponent := target.type = some "component" ∧ tData.kind = some "component"
      let sIsGroup := (source.type = some "group" ∨ sData.kind = some "group") ∧
        truthy sData.groupTypeId
      let tIsGroup := (target.type = some "group" ∨ tData.kind = some "group") ∧
        truthy tData.groupTypeId
      if ¬ sIsComponent ∧ ¬ sIsGroup then
        [err "EDGE_SOURCE_INVALID"
          "Edge source must be a typed component or a supported semantic group."
          (edgeTarget edge.id)]
      else if ¬ tIsComponent ∧ ¬ tIsGroup then
        [err "EDGE_TARGET_INVALID"
          "Edge target must be a typed component or a supported semantic group."
          (edgeTarget edge.id)]
      else
        match edge.data.edgeTypeId with
        | none =>
          [err "EDGE_TYPE_ID_MISSING" "Edge is missing edgeTypeId." (edgeTarget edge.id)]
        | some g =>
          if g = "" then
            [err "EDGE_TYPE_ID_MISSING" "Edge is missing edgeTypeId." (edgeTarget edge.id)]
          else
            match (if registryReady then jsGet registry.edgeTypesById g else none) with
            | none =>
              [err "EDGE_TYPE_UNKNOWN" s!"Unknown edgeTypeId (not in registry): {g}."
                (edgeTarget edge.id)]
            | some edgeType =>
              edgeVersionIssues g edgeType edge ++
              (if guidedEdgeTypeIds.contains g then
                edgeGuidedTail nodeById nodes diagramTypeId g edge target
              else edgeLegacyTail registry g edge source target)
    | _, _ =>
      [err "EDGE_MISSING_ENDPOINT" "Edge references missing source or target node."
        (edgeTarget edge.id)]

/-- Programme-portfolio mandatory-link warnings. -/
def programmeIssue (edges : List Edge) (node : Node) : List Issue :=
  if node.id = "" then []
  else if ¬ (node.type = some "group" ∧ node.data.groupTypeId = some EA_GROUP_TYPES.PROG_PROGRAMME) then []
  else
    let outgoing := edges.filter (fun e => e.source = node.id)
    let hasRequired := outgoing.any (fun e =>
      e.data.edgeTypeId = some EA_EDGE_TYPES.PROGRAMME_TO_APPLICATION ∨
        e.data.edgeTypeId = some EA_EDGE_TYPES.PROGRAMME_TO_CAPABILITY)
    if ¬ hasRequired then
      [warn "PROGRAMME_MISSING_TARGETS"
        "Programme has no links to Capabilities or Applications. Add at least one to make it meaningful."
        (nodeTarget node.id)]
    else []

/-- Cross-domain traceability completeness warnings. -/
def traceabilityIssue (edges : List Edge) (node : Node) : List Issue :=
  if node.id = "" then []
  else if ¬ (node.type = some "component" ∧
      node.data.componentTypeId = some EA_COMPONENT_TYPES.APPLICATION) then []
  else
    let attached := edges.filter (fun e => e.source = node.id ∨ e.target = node.id)
    if attached.length = 0 then
      [warn "APPLICATION_UNLINKED"
        "Application has no relationships. In traceability views, link Applications to Business Processes and/or Technology."
        (nodeTarget node.id)]
    else []

/-- The object argument of `validateDiagram`. -/
structure VInput where
  registry : Registry
  nodes : List Node := []
  edges : List Edge := []
  diagramTypeId : Option String := none

/-- All issues, in push order, before the final stable sort. -/
def rawIssues (inp : VInput) : List Issue :=
  let registryReady := inp.registry.status = "ready"
  let nodeById := nodeMapOf inp.nodes
  registryIssues inp.registry ++
  diagramTypeIssues inp.diagramTypeId ++
  inp.nodes.flatMap (nodeIssue registryReady inp.registry) ++
  inp.nodes.flatMap (nestingIssue registryReady inp.registry nodeById) ++
  (match inp.diagramTypeId with
   | some d =>
     if d ≠ "" ∧ isKnownDiagramType d then
       inp.nodes.flatMap (structuralIssue nodeById d) ++
       inp.nodes.flatMap (cardinalityIssue inp.nodes) ++
       (if d = "technology-architecture" then techLayerIssues inp.nodes else [])
     else []
   | none => []) ++
  inp.edges.flatMap (edgeIssue inp.registry registryReady nodeById inp.nodes inp.diagramTypeId) ++
  (if inp.diagramTypeId = some "programme-portfolio" then
    inp.nodes.flatMap (programmeIssue inp.edges)
   else []) ++
  (if inp.diagramTypeId = some "cross-domain-traceability" then
    inp.nodes.flatMap (traceabilityIssue inp.edges)
   else [])

/-- `validateDiagram({registry, nodes, edges, diagramTypeId})`. -/
def validateDiagram (inp : VInput) : List Issue :=
  stableSortBy (rawIssues inp)

/-! ## `store.js` — the studio store (the actions the claims exercise)

The zustand store is a record; each embedded action is a function from the
prior state (plus the action's arguments and the nondeterministic inputs
`now` / fresh-id supplies) to the next state.  Only the state fields the
embedded actions read or write are modeled; `diagramViews`/`view` (layout
projections), `connectMode` and `snapGrid`/`showGrid` are untouched by
these actions' claim-relevant behavior and omitted. -/

/-- `state.metadata`.  (`eaSnapshot` is only written by the snapshot
import, which is not embedded.) -/
structure Metadata where
  name : String := "Untitled Diagram"
  description : String := ""
  diagramTypeId : Option String := none
  createdAt : String := ""
  updatedAt : String := ""
  deriving DecidableEq, Repr

/-- A history snapshot `{nodes, edges, metadata}`; the deep clone of pure
values is the identity. -/
structure Snapshot where
  nodes : List Node := []
  edges : List Edge := []
  metadata : Metadata := {}
  deriving DecidableEq, Repr

structure History where
  past : List Snapshot := []
  future : List Snapshot := []
  deriving DecidableEq, Repr

structure Clipboard where
  nodes : List Node := []
  edges : List Edge := []
  deriving DecidableEq, Repr

structure StoreState where
  registry : Registry := {}
  registryError : Option String := none
  metadata : Metadata := {}
  nodes : List Node := []
  edges : List Edge := []
  validationErrors : List Issue := []
  lastModelingError : Option String := none
  history : History := {}
  clipboard : Option Clipboard := none
  selectionNodes : List String := []
  selectionEdges : List String := []
  dirty : Bool := false

/-- `snapshot(state)`. -/
def snapshot (st : StoreState) : Snapshot :=
  ⟨st.nodes, st.edges, st.metadata⟩

/-- `_pushHistory()`. -/
def pushHistory (st : StoreState) : StoreState :=
  { st with history := ⟨st.history.past ++ [snapshot st], []⟩ }

/-- The `updates` object passed to `setMetadata`: `none` = key absent
(`hasOwnProperty` false), `some v` = key present with value `v`. -/
structure MetadataUpdates where
  name : Option String := none
  description : Option String := none
  diagramTypeId : Option (Option String) := none

/-- `setMetadata(updates)` (store.js:1147).  The spread
`{...metadata, ...updates}` applies every present key — including
`diagramTypeId` — unconditionally, and when `diagramTypeId` is among the
updates, validation is recomputed under the *new* value. -/
def setMetadata (now : String) (st : StoreState) (updates : MetadataUpdates) : StoreState :=
  let md : Metadata :=
    { name := updates.name.getD st.metadata.name
      description := updates.description.getD st.metadata.description
      diagramTypeId := updates.diagramTypeId.getD st.metadata.diagramTypeId
      createdAt := st.metadata.createdAt
      updatedAt := now }
  let st' := { st with metadata := md, dirty := true }
  if updates.diagramTypeId.isSome then
    { st' with validationErrors :=
        validateDiagram ⟨st.registry, st.nodes, st.edges, md.diagramTypeId⟩ }
  else st'

/-- `setRegistry(registryState)` (store.js:536).  Note the final
`validateDiagram({registry, nodes, edges})` call passes no
`diagramTypeId`. -/
def setRegistry (now : String) (st : StoreState) (registryState : Option Registry) : StoreState :=
  let next := registryState.getD { status := "loading" }
  let regError : Option String :=
    if next.status = "error" then some (next.message.getD "Registry load failed.") else none
  let nodes :=
    if next.status = "ready" then st.nodes.map (normalizeNode now next) else st.nodes
  let edges :=
    if next.status = "ready" then st.edges.map (normalizeEdge now) else st.edges
  { st with
    registry := next
    registryError := regError
    nodes := nodes
    edges := edges
    validationErrors := validateDiagram ⟨next, nodes, edges, none⟩ }

/-- `revalidate()` (store.js:555) — also passes no `diagramTypeId`. -/
def revalidate (st : StoreState) : StoreState :=
  { st with validationErrors :=
      validateDiagram ⟨st.registry, st.nodes, st.edges, none⟩ }

/-- The per-node transform inside `pasteClipboard`: clone, fresh id,
offset position, `selected: true`, drop `parentNode`/`extent`, then
`normalizeNode`. -/
def pasteNode (now : String) (registry : Registry) (offset : Int × Int)
    (newId : String) (node : Node) : Node :=
  normalizeNode now registry
    { node with
      id := newId
      position := (node.position.1 + offset.1, node.position.2 + offset.2)
      selected := true
      parentNode := none
      extent := none }

/-- The first hard-fail scan of `pasteClipboard`: a pasted typed element
missing its pinned version aborts the paste. -/
def pasteNodeError (node : Node) : Option String :=
  if node.data.kind = some "component" ∧ node.data.componentTypeVersion = none then
    some "Cannot paste component missing componentTypeVersion."
  else if node.data.kind = some "group" ∧ node.data.groupTypeVersion = none then
    some "Cannot paste group missing groupTypeVersion."
  else none

/-- `computeAllowedEdgeTypeIds(registry, sourceType, targetType)`
(store.js:293): intersection of the endpoint types' allow-lists,
restricted to registered edge types, sorted. -/
def computeAllowedEdgeTypeIds (registry : Registry)
    (sourceType targetType : Option ComponentType) : List String :=
  match sourceType, targetType with
  | some sT, some tT =>
    sortStrings ((sT.allowedEdgeTypes.filter (fun id => tT.allowedEdgeTypes.contains id)).filter
      (fun id => (jsGet registry.edgeTypesById id).isSome))
  | _, _ => []

/-- `Math.min(...)` over a nonempty list (the caller guards emptiness). -/
def listMin (l : List Int) : Int :=
  match l with
  | [] => 0
  | h :: t => t.foldl min h

/-- The second hard-fail scan of `pasteClipboard`, per surviving edge:
unknown/unversioned edge type, non-component endpoints, or failed
compatibility checks abort the paste. -/
def pasteEdgeError (registry : Registry) (newNodeById : List (String × Node))
    (edge : Edge) : Option String :=
  let edgeTypeId := edge.data.edgeTypeId
  let known : Bool := match edgeTypeId with
    | some g => g != "" && (jsGet registry.edgeTypesById g).isSome
    | none => false
  if ¬ known then
    let shown := edgeTypeId.getD "(missing)"
    some s!"Cannot paste edge with unknown edgeTypeId: {shown}."
  else if edge.data.edgeTypeVersion = none then
    let shown := edgeTypeId.getD "(missing)"
    some s!"Cannot paste edge missing edgeTypeVersion for {shown}."
  else
    let sourceNode := jsGet newNodeById edge.source
    let targetNode := jsGet newNodeById edge.target
    let sType := sourceNode.bind (fun n => n.data.componentTypeId.bind (jsGet registry.componentTypesById))
    let tType := targetNode.bind (fun n => n.data.componentTypeId.bind (jsGet registry.componentTypesById))
    match sType, tType with
    | some sourceType, some targetType =>
      let sn := sourceType.displayName
      let tn := targetType.displayName
      let g := edgeTypeId.getD ""
      if (sourceType.allowedChildTypes ≠ [] ∨ targetType.allowedParentTypes ≠ []) ∧
          ¬ (sourceType.allowedChildTypes.contains targetType.typeId ∧
             targetType.allowedParentTypes.contains sourceType.typeId) then
        some s!"Cannot paste edge: {sn} cannot connect to {tn}."
      else
        let allowed := computeAllowedEdgeTypeIds registry (some sourceType) (some targetType)
        if ¬ allowed.contains g then
          some s!"Cannot paste edge: edge type {g} is not allowed between {sn} and {tn}."
        else none
    | _, _ => some "Cannot paste edge: endpoints must be typed components."

/-- `pasteClipboard(anchorPosition)` (store.js:2121).  `freshN`/`freshE`
supply the `crypto.randomUUID()`-based ids (injective in any run). -/
def pasteClipboard (freshN freshE : Nat → String) (now : String)
    (st : StoreState) (anchorPosition : Option (Int × Int)) : StoreState :=
  match st.clipboard with
  | none => st
  | some clipboard =>
    if clipboard.nodes = [] ∧ clipboard.edges = [] then st
    else if st.registry.status ≠ "ready" then
      { st with lastModelingError := some "Component Type Registry is not loaded. Cannot paste." }
    else
      let registry := st.registry
      let sourceNodes := clipboard.nodes
      let sourceEdges := clipboard.edges
      let minX := if sourceNodes ≠ [] then listMin (sourceNodes.map (fun n => n.position.1)) else 0
      let minY := if sourceNodes ≠ [] then listMin (sourceNodes.map (fun n => n.position.2)) else 0
      let offset : Int × Int :=
        match anchorPosition with
        | some (ax, ay) => (ax - minX + 12, ay - minY + 12)
        | none => (40, 40)
      let idMap : List (String × String) :=
        sourceNodes.enum.map (fun p => (p.2.id, freshN p.1))
      let newNodes : List Node :=
        sourceNodes.enum.map (fun p => pasteNode now registry offset (freshN p.1) p.2)
      match newNodes.findSome? pasteNodeError with
      | some m => { st with lastModelingError := some m }
      | none =>
        let newEdges : List Edge :=
          sourceEdges.enum.filterMap (fun p =>
            if (jsGet idMap p.2.source).isSome ∧ (jsGet idMap p.2.target).isSome then
              some (normalizeEdge now
                { p.2 with
                  id := freshE p.1
                  source := (jsGet idMap p.2.source).getD p.2.source
                  target := (jsGet idMap p.2.target).getD p.2.target
                  selected := true })
            else none)
        let newNodeById := nodeMapOf newNodes
        match newEdges.findSome? (pasteEdgeError registry newNodeById) with
        | some m => { st with lastModelingError := some m }
        | none =>
          let st1 := pushHistory st
          let nodes := st1.nodes ++ newNodes
          let edges := st1.edges ++ newEdges
          { st1 with
            nodes := nodes
            edges := edges
            selectionNodes := newNodes.map (fun n => n.id)
            selectionEdges := newEdges.map (fun e => e.id)
            dirty := true
            metadata := { st1.metadata with updatedAt := now }
            validationErrors :=
              validateDiagram ⟨st.registry, nodes, edges, st1.metadata.diagramTypeId⟩ }

/-! ## `impact/impact.js` -/

/-- `isEaDependencyEdge(edge)`. -/
def isEaDependencyEdge (edge : Edge) : Bool :=
  edge.source ≠ "" ∧ edge.target ≠ "" ∧
    edge.data.metadata.bind (fun m => m.source) = some "EA_CORE" ∧
    edge.data.metadata.bind (fun m => m.eaSourceType) = some "Dependency"

/-- `normalizeDepth(value)`: `some n` is a numeric input, `none` a
non-numeric one (`Number(value)` = NaN). -/
def normalizeDepth : Option Int → Int
  | some n => if n = 1 ∨ n = 2 ∨ n = 3 then n else 1
  | none => 1

/-- `normalizeDirection(value)`. -/
def normalizeDirection : Option String → String
  | some "upstream" => "upstream"
  | _ => "downstream"

/-- `safeSet(values)` then `Array.from(...).sort()`: dedup (insertion
order), drop falsy entries, sort. -/
def impactStartIds (selectedNodeIds : List String) : List String :=
  sortStrings ((selectedNodeIds.filter (fun s => s ≠ "")).foldl setAdd [])

structure ImpactIndicators where
  inDegreeByNodeId : List (String × Nat) := []
  outDegreeByNodeId : List (String × Nat) := []
  maxFanIn : Nat := 0
  maxFanOut : Nat := 0
  highFanInNodeIds : List String := []
  highFanOutNodeIds : List String := []
  chainNodeIds : List String := []
  deriving DecidableEq, Repr

structure ImpactResult where
  direction : String
  depthLimit : Int
  startNodeIds : List String
  impactedNodeIds : List String
  impactedEdgeIds : List String
  depthByNodeId : List (String × Int)
  indicators : ImpactIndicators
  deriving DecidableEq, Repr

/-- The `for (let i = 0; i < queue.length; ...)` BFS loop as a worklist.
A node re-enters the queue only when its recorded depth strictly
improves, and depths live in `[0, depthLimit]` with `depthLimit ≤ 3`, so
`fuel = startCount + 4 * nodeCount + 4` strictly bounds every enqueue the
source can perform; the loop is reproduced exactly below that bound. -/
def bfsLoop (adjacency : List (String × List String)) (nodeIdSet : List String)
    (depthLimit : Int) :
    Nat → List String → List (String × Int) → List (String × Int)
  | 0, _, depths => depths
  | _, [], depths => depths
  | fuel + 1, currentId :: queueRest, depths =>
    match jsGet depths currentId with
    | none => bfsLoop adjacency nodeIdSet depthLimit fuel queueRest depths
    | some d =>
      if d ≥ depthLimit then bfsLoop adjacency nodeIdSet depthLimit fuel queueRest depths
      else
        let neighbors := (jsGet adjacency currentId).getD []
        let step := neighbors.foldl
          (fun (acc : List (String × Int) × List String) nextId =>
            if ¬ nodeIdSet.contains nextId then acc
            else
              let nextDepth := d + 1
              match jsGet acc.1 nextId with
              | some existing =>
                if existing ≤ nextDepth then acc
                else (jsSet acc.1 nextId nextDepth, acc.2 ++ [nextId])
              | none => (jsSet acc.1 nextId nextDepth, acc.2 ++ [nextId]))
          (depths, [])
        bfsLoop adjacency nodeIdSet depthLimit fuel (queueRest ++ step.2) step.1

/-- `computeImpactAnalysis({nodes, edges, selectedNodeIds, direction, maxDepth})`. -/
def computeImpactAnalysis (nodes : List Node) (edges : List Edge)
    (selectedNodeIds : List String) (direction : Option String)
    (maxDepth : Option Int) : ImpactResult :=
  let depthLimit := normalizeDepth maxDepth
  let dir := normalizeDirection direction
  let startIds := impactStartIds selectedNodeIds
  let nodeIdSet := (nodes.map (fun n => n.id)).filter (fun s => s ≠ "")
  let eaEdges := edges.filter isEaDependencyEdge
  let endpoints : Edge → String × String := fun e =>
    if dir = "downstream" then (e.source, e.target) else (e.target, e.source)
  let adjacency0 : List (String × List String) :=
    eaEdges.foldl
      (fun adj e =>
        let p := endpoints e
        if p.1 = "" ∨ p.2 = "" then adj
        else if ¬ nodeIdSet.contains p.1 ∨ ¬ nodeIdSet.contains p.2 then adj
        else jsSet adj p.1 ((jsGet adj p.1).getD [] ++ [p.2]))
      []
  let adjacency := adjacency0.map (fun p => (p.1, sortStrings p.2))
  let start := startIds.foldl
    (fun (acc : List (String × Int) × List String) id =>
      if ¬ nodeIdSet.contains id then acc
      else if (jsGet acc.1 id).isSome then acc
      else (jsSet acc.1 id 0, acc.2 ++ [id]))
    ([], [])
  let fuel := start.2.length + 4 * nodeIdSet.length + 4
  let depthByNodeId := bfsLoop adjacency nodeIdSet depthLimit fuel start.2 start.1
  let impactedNodeIds := depthByNodeId.map (fun p => p.1)
  let impactedEdgeIds := eaEdges.foldl
    (fun s e =>
      let p := endpoints e
      match jsGet depthByNodeId p.1, jsGet depthByNodeId p.2 with
      | some fromDepth, some toDepth =>
        if toDepth = fromDepth + 1 ∧ fromDepth < depthLimit then setAdd s e.id else s
      | _, _ => s)
    []
  let degrees := eaEdges.foldl
    (fun (acc : List (String × Nat) × List (String × Nat)) e =>
      if ¬ impactedNodeIds.contains e.source ∨ ¬ impactedNodeIds.contains e.target then acc
      else
        (jsSet acc.1 e.target ((jsGet acc.1 e.target).getD 0 + 1),
         jsSet acc.2 e.source ((jsGet acc.2 e.source).getD 0 + 1)))
    (impactedNodeIds.map (fun id => (id, 0)), impactedNodeIds.map (fun id => (id, 0)))
  let inDegreeByNodeId := degrees.1
  let outDegreeByNodeId := degrees.2
  let maxFanIn := impactedNodeIds.foldl (fun m id => max m ((jsGet inDegreeByNodeId id).getD 0)) 0
  let maxFanOut := impactedNodeIds.foldl (fun m id => max m ((jsGet outDegreeByNodeId id).getD 0)) 0
  let highFanInNodeIds :=
    if maxFanIn > 0 then
      impactedNodeIds.foldl
        (fun s id => if (jsGet inDegreeByNodeId id).getD 0 = maxFanIn then setAdd s id else s) []
    else []
  let highFanOutNodeIds :=
    if maxFanOut > 0 then
      impactedNodeIds.foldl
        (fun s id => if (jsGet outDegreeByNodeId id).getD 0 = maxFanOut then setAdd s id else s) []
    else []
  let chainNodeIds :=
    impactedNodeIds.foldl
      (fun s id =>
        if (jsGet inDegreeByNodeId id).getD 0 = 1 ∧ (jsGet outDegreeByNodeId id).getD 0 = 1 then
          setAdd s id
        else s)
      []
  { direction := dir
    depthLimit := depthLimit
    startNodeIds := startIds
    impactedNodeIds := impactedNodeIds
    impactedEdgeIds := impactedEdgeIds
    depthByNodeId := depthByNodeId
    indicators :=
      { inDegreeByNodeId := inDegreeByNodeId
        outDegreeByNodeId := outDegreeByNodeId
        maxFanIn := maxFanIn
        maxFanOut := maxFanOut
        highFanInNodeIds := highFanInNodeIds
        highFanOutNodeIds := highFanOutNodeIds
        chainNodeIds := chainNodeIds } }

/-! ## General lemmas about the validator's output -/

theorem mem_validateDiagram_iff (inp : VInput) (i : Issue) :
    i ∈ validateDiagram inp ↔ i ∈ rawIssues inp :=
  (List.perm_insertionSort issueLe (rawIssues inp)).mem_iff

theorem countP_validateDiagram (inp : VInput) (p : Issue → Bool) :
    (validateDiagram inp).countP p = (rawIssues inp).countP p :=
  (List.perm_insertionSort issueLe (rawIssues inp)).countP_eq p

/-- Keep only the first of each run of equal adjacent elements; a list of
group keys is "grouped" (each key's occurrences contiguous) iff its
consecutive dedup has no duplicates. -/
def dedupConsec {α : Type} [DecidableEq α] : List α → List α
  | [] => []
  | [a] => [a]
  | a :: b :: t => if a = b then dedupConsec (b :: t) else a :: dedupConsec (b :: t)

/-! ## Claim C7 — impact BFS scenarios -/

/-- A bare node for the impact scenarios (the traversal reads only ids). -/
def impactNode (s : String) : Node := { id := s }

/-- An externally-sourced dependency edge, as tagged by the importer. -/
def impactDepEdge (eid s t : String) : Edge :=
  { id := eid, source := s, target := t,
    data := { metadata := some { source := some "EA_CORE", eaSourceType := some "Dependency" } } }

def impactNodesABCD : List Node :=
  [impactNode "A", impactNode "B", impactNode "C", impactNode "D"]

def impactEdgesABCD : List Edge :=
  [impactDepEdge "e1" "A" "B", impactDepEdge "e2" "B" "C", impactDepEdge "e3" "B" "D"]

/-- **C7.** `computeImpactAnalysis` BFS over the dependency edges A→B,
B→C, B→D records minimum depths from the sorted, deduplicated start set:
downstream from {A} with maxDepth 2 the depth map is exactly
{A:0, B:1, C:2, D:2}; with maxDepth 1 it is {A:0, B:1} and C, D are
absent; upstream from {C} with maxDepth 2 (and 3) it is
{C:0, B:1, A:2}. -/
theorem C7_impact_bfs_scenarios :
    (computeImpactAnalysis impactNodesABCD impactEdgesABCD ["A"] (some "downstream")
        (some 2)).depthByNodeId = [("A", 0), ("B", 1), ("C", 2), ("D", 2)] ∧
    (computeImpactAnalysis impactNodesABCD impactEdgesABCD ["A"] (some "downstream")
        (some 2)).startNodeIds = ["A"] ∧
    (computeImpactAnalysis impactNodesABCD impactEdgesABCD ["A"] (some "downstream")
        (some 1)).depthByNodeId = [("A", 0), ("B", 1)] ∧
    jsGet (computeImpactAnalysis impactNodesABCD impactEdgesABCD ["A"] (some "downstream")
        (some 1)).depthByNodeId "C" = none ∧
    jsGet (computeImpactAnalysis impactNodesABCD impactEdgesABCD ["A"] (some "downstream")
        (some 1)).depthByNodeId "D" = none ∧
    (computeImpactAnalysis impactNodesABCD impactEdgesABCD ["C"] (some "upstream")
        (some 2)).depthByNodeId = [("C", 0), ("B", 1), ("A", 2)] ∧
    (computeImpactAnalysis impactNodesABCD impactEdgesABCD ["C"] (some "upstream")
        (some 3)).depthByNodeId = [("C", 0), ("B", 1), ("A", 2)] := by
  refine ⟨rfl, rfl, rfl, rfl, rfl, rfl, rfl⟩

/-! ## Claim C8 — depth bound normalization -/

/-- **C8.** The depth bound `computeImpactAnalysis` actually uses is
`normalizeDepth maxDepth`, which always lands in {1,2,3}; any input
outside {1,2,3} — including the numeric 5, which is therefore treated as
1, not clamped down to 3 — gets the default 1 (`none` stands for a
non-numeric input). -/
theorem C8_depth_clamp :
    ∀ (v : Option Int) (nodes : List Node) (edges : List Edge)
      (selectedNodeIds : List String) (direction : Option String),
      (normalizeDepth v = 1 ∨ normalizeDepth v = 2 ∨ normalizeDepth v = 3) ∧
      (computeImpactAnalysis nodes edges selectedNodeIds direction v).depthLimit =
        normalizeDepth v ∧
      ((v ≠ some 1 ∧ v ≠ some 2 ∧ v ≠ some 3) → normalizeDepth v = 1) ∧
      normalizeDepth (some 5) = 1 := by
  intro v nodes edges selectedNodeIds direction
  refine ⟨?_, rfl, ?_, rfl⟩
  · match v with
    | none => left; rfl
    | some n =>
      by_cases h1 : n = 1
      · left; simp [normalizeDepth, h1]
      · by_cases h2 : n = 2
        · right; left; simp [normalizeDepth, h2]
        · by_cases h3 : n = 3
          · right; right; simp [normalizeDepth, h3]
          · left; simp [normalizeDepth, h1, h2, h3]
  · intro h
    match v with
    | none => rfl
    | some n =>
      have h1 : n ≠ 1 := by intro hh; exact h.1 (by rw [hh])
      have h2 : n ≠ 2 := by intro hh; exact h.2.1 (by rw [hh])
      have h3 : n ≠ 3 := by intro hh; exact h.2.2 (by rw [hh])
      simp [normalizeDepth, h1, h2, h3]

/-- Witness for C8 at the concrete input 5. -/
theorem C8_witness : normalizeDepth (some 5) = 1 :=
  (C8_depth_clamp (some 5) [] [] [] none).2.2.1 (by decide)

/-! ## Claim C9 — allowed connect targets -/

theorem mem_setAdd {s : List String} {x y : String} :
    x ∈ setAdd s y ↔ x ∈ s ∨ x = y := by
  unfold setAdd
  split
  · rename_i h
    constructor
    · exact fun hx => Or.inl hx
    · rintro (hx | rfl)
      · exact hx
      · exact h
  · simp

theorem resolveGuidedConnection_target_empty (dt : Option String) (nodes : List Node)
    (sourceId : String) : resolveGuidedConnection dt nodes sourceId "" = none := by
  unfold resolveGuidedConnection
  simp

theorem mem_allowedFold (dt : Option String) (nodes : List Node) (sourceId : String)
    (l : List Node) (acc : List String) (x : String) :
    x ∈ l.foldl
      (fun allowed node =>
        if node.id = "" ∨ node.id = sourceId then allowed
        else if (resolveGuidedConnection dt nodes sourceId node.id).isSome then
          setAdd allowed node.id
        else allowed) acc ↔
    x ∈ acc ∨ ∃ n ∈ l, n.id = x ∧ ¬ (n.id = "" ∨ n.id = sourceId) ∧
      (resolveGuidedConnection dt nodes sourceId n.id).isSome := by
  induction l generalizing acc with
  | nil => simp
  | cons hd tl ih =>
    simp only [List.foldl_cons, List.mem_cons]
    by_cases hskip : hd.id = "" ∨ hd.id = sourceId
    · rw [if_pos hskip, ih]
      constructor
      · rintro (h | ⟨n, hn, rest⟩)
        · exact Or.inl h
        · exact Or.inr ⟨n, Or.inr hn, rest⟩
      · rintro (h | ⟨n, hn | hn, hx, hnot, hres⟩)
        · exact Or.inl h
        · subst hn; exact absurd hskip hnot
        · exact Or.inr ⟨n, hn, hx, hnot, hres⟩
    · rw [if_neg hskip]
      by_cases hres : (resolveGuidedConnection dt nodes sourceId hd.id).isSome
      · rw [if_pos hres, ih]
        constructor
        · rintro (h | ⟨n, hn, rest⟩)
          · rcases mem_setAdd.mp h with h | h
            · exact Or.inl h
            · exact Or.inr ⟨hd, Or.inl rfl, h.symm ▸ rfl, hskip, hres⟩
          · exact Or.inr ⟨n, Or.inr hn, rest⟩
        · rintro (h | ⟨n, hn | hn, hx, hnot, hres'⟩)
          · exact Or.inl (mem_setAdd.mpr (Or.inl h))
          · subst hn
            exact Or.inl (mem_setAdd.mpr (Or.inr hx.symm))
          · exact Or.inr ⟨n, hn, hx, hnot, hres'⟩
      · rw [if_neg hres, ih]
        constructor
        · rintro (h | ⟨n, hn, rest⟩)
          · exact Or.inl h
          · exact Or.inr ⟨n, Or.inr hn, rest⟩
        · rintro (h | ⟨n, hn | hn, hx, hnot, hres'⟩)
          · exact Or.inl h
          · subst hn; exact absurd hres' hres
          · exact Or.inr ⟨n, hn, hx, hnot, hres'⟩

/-- **C9.** `computeAllowedTargetIds` returns exactly the ids of nodes
other than the source for which `resolveGuidedConnection` with that
source and that node as target resolves (returns non-null). -/
theorem C9_allowed_target_ids :
    ∀ (diagramTypeId : Option String) (nodes : List Node) (sourceId x : String),
      x ∈ computeAllowedTargetIds diagramTypeId nodes sourceId ↔
        (x ≠ sourceId ∧ (∃ n ∈ nodes, n.id = x) ∧
          (resolveGuidedConnection diagramTypeId nodes sourceId x).isSome) := by
  intro dt nodes sourceId x
  unfold computeAllowedTargetIds
  split
  · rename_i hguard
    simp only [List.not_mem_nil, false_iff]
    rintro ⟨hxs, ⟨n, hn, hnx⟩, hres⟩
    rcases hguard with h | h
    · rw [show (resolveGuidedConnection dt nodes sourceId x) = none by
        unfold resolveGuidedConnection; rw [if_pos (Or.inl h)]] at hres
      simp at hres
    · rw [show (resolveGuidedConnection dt nodes sourceId x) = none by
        unfold resolveGuidedConnection; rw [if_pos (Or.inr (Or.inl h))]] at hres
      simp at hres
  · rw [mem_allowedFold]
    simp only [List.not_mem_nil, false_or]
    constructor
    · rintro ⟨n, hn, hnx, hnot, hres⟩
      subst hnx
      exact ⟨fun h => hnot (Or.inr h), ⟨n, hn, rfl⟩, hres⟩
    · rintro ⟨hxs, ⟨n, hn, hnx⟩, hres⟩
      subst hnx
      by_cases hne : n.id = ""
      · rw [hne, resolveGuidedConnection_target_empty] at hres
        simp at hres
      · exact ⟨n, hn, rfl, by simp [hne, hxs], hres⟩

/-! ## Claim C10 — `setRegistry`/`revalidate` drop the diagram type -/

def diagramTypeMissingIssue : Issue :=
  err "DIAGRAM_TYPE_MISSING"
    "Diagram type is not set. Select a diagram type to enable modeling." diagramTarget

theorem diagramTypeMissing_mem_of_none (inp : VInput) (h : inp.diagramTypeId = none) :
    diagramTypeMissingIssue ∈ validateDiagram inp := by
  rw [mem_validateDiagram_iff]
  unfold rawIssues
  rw [h]
  simp [diagramTypeIssues, diagramTypeMissingIssue]

/-- **C10.** `setRegistry` and `revalidate` recompute `validationErrors`
by calling the validator without the stored `metadata.diagramTypeId`, so
the issue list they produce always contains the `DIAGRAM_TYPE_MISSING`
ERROR — for every store state, in particular when the store's diagram
type is set to a known diagram type. -/
theorem C10_revalidate_missing_diagram_type :
    ∀ (now : String) (st : StoreState) (registryState : Option Registry),
      diagramTypeMissingIssue ∈ (setRegistry now st registryState).validationErrors ∧
      diagramTypeMissingIssue ∈ (revalidate st).validationErrors := by
  intro now st registryState
  constructor
  · exact diagramTypeMissing_mem_of_none _ rfl
  · exact diagramTypeMissing_mem_of_none _ rfl

/-! ## Claim C3 — validator determinism and issue ordering -/

/-- **C3 (amended).** For any fixed input tuple, two invocations of
`validateDiagram` return identical issue lists in identical order, and
the returned list is the stable sort of the accumulated issues by the
concatenated key string `kind:id:severityRank:code` (compared as JS
strings).  That key ordering agrees with "primarily by target kind/id,
secondarily by severity rank, tertiarily by code" except when one target
id extends another with a `:`-separated suffix — the case the
counterexample exhibits. -/
theorem C3_validator_deterministic_stably_sorted :
    ∀ inp : VInput,
      validateDiagram inp = validateDiagram inp ∧
      (validateDiagram inp).Sorted issueLe ∧
      List.Perm (validateDiagram inp) (rawIssues inp) := by
  intro inp
  exact ⟨rfl, List.sorted_insertionSort issueLe (rawIssues inp),
    List.perm_insertionSort issueLe (rawIssues inp)⟩

/-- Registry for the C3 counterexample: only the capability category
group type, at version 1. -/
def c3Registry : Registry :=
  { status := "ready"
    groupTypesById := [("ea.catDept",
      { groupTypeId := "ea.catDept", displayName := "Category / Department",
        version := some (.fin 1) })] }

/-- Nodes for the C3 counterexample: a group `p` of unknown type, a
nested category `a` with a stale pinned version, and an untyped node
whose id `a:1` extends `a` with a colon-digit suffix. -/
def c3Nodes : List Node :=
  [ { id := "p", type := some "group",
      data := { kind := some "group", groupTypeId := some "zz" } },
    { id := "a", type := some "group", parentNode := some "p",
      data := { kind := some "group", groupTypeId := some "ea.catDept",
                groupTypeVersion := some (.fin 2) } },
    { id := "a:1", type := some "x" } ]

def c3Input : VInput :=
  { registry := c3Registry, nodes := c3Nodes, diagramTypeId := some "capability-map" }

/-- **C3 (counterexample).** The sort key is the concatenated string
`kind:id:rank:code`, so for target ids `a` and `a:1` the issue order is
decided by `a`'s severity digit against the `1` of `a:1`: the output
interleaves the two targets (`a` ERROR, `a:1` ERROR, `a` WARNINGs),
refuting "primarily by target kind/id, secondarily by severity". -/
theorem C3_counterexample :
    (validateDiagram c3Input).map (fun i => (i.target.kind, i.target.id, i.severity)) =
      [("node", some "a", "ERROR"), ("node", some "a:1", "ERROR"),
       ("node", some "a", "WARNING"), ("node", some "a", "WARNING"),
       ("node", some "p", "ERROR")] ∧
    ¬ (dedupConsec ((validateDiagram c3Input).map
        (fun i => (i.target.kind, i.target.id)))).Nodup := by
  constructor
  · rfl
  · decide

/-! ## Claim C1 — the diagram-type "lock" and `setMetadata` -/

/-- **C1 (amended).** `setMetadata` applies a `diagramTypeId` update
unconditionally — also when nodes already exist — and recomputes
`validationErrors` under the *new* value; the diagram-type lock is
enforced by the UI (the selector is disabled once `hasModeled`), not by
the store's setter. -/
theorem C1_setMetadata_applies_new_diagram_type :
    ∀ (now : String) (st : StoreState) (updates : MetadataUpdates) (v : Option String),
      updates.diagramTypeId = some v →
      (setMetadata now st updates).metadata.diagramTypeId = v ∧
      (setMetadata now st updates).validationErrors =
        validateDiagram ⟨st.registry, st.nodes, st.edges, v⟩ := by
  intro now st updates v h
  unfold setMetadata
  rw [h]
  exact ⟨rfl, rfl⟩

/-- Witness for C1's amended theorem at a concrete update. -/
theorem C1_witness :
    (setMetadata "t0" {} { diagramTypeId := some (some "capability-map") }).metadata.diagramTypeId =
      some "capability-map" :=
  (C1_setMetadata_applies_new_diagram_type "t0" {}
    { diagramTypeId := some (some "capability-map") } (some "capability-map") rfl).1

/-- A typed application component (unknown to the still-loading registry). -/
def c1Node : Node :=
  { id := "n1", type := some "component",
    data := { kind := some "component", componentTypeId := some "app.application",
              componentTypeVersion := some (.fin 1) } }

/-- A modeling-in-progress store state: one node exists and the diagram
type is already set (to `capability-map`), with `validationErrors` as the
store last computed them under that type. -/
def c1State : StoreState :=
  { registry := { status := "loading" }
    metadata := { diagramTypeId := some "capability-map" }
    nodes := [c1Node]
    validationErrors :=
      validateDiagram ⟨{ status := "loading" }, [c1Node], [], some "capability-map"⟩ }

/-- **C1 (counterexample).** In a state with one node and
`diagramTypeId = capability-map`, calling `setMetadata` with
`diagramTypeId = application-landscape` *does* change the validator
output (the application node now draws `APPLICATION_PARENT_INVALID`):
the setter is not a no-op for that field once modeling has begun. -/
theorem C1_counterexample :
    c1State.nodes ≠ [] ∧
    c1State.metadata.diagramTypeId = some "capability-map" ∧
    c1State.validationErrors =
      validateDiagram ⟨c1State.registry, c1State.nodes, c1State.edges, some "capability-map"⟩ ∧
    (setMetadata "t1" c1State
        { diagramTypeId := some (some "application-landscape") }).validationErrors ≠
      c1State.validationErrors := by
  refine ⟨by decide, rfl, rfl, by decide⟩

/-! ## Counting lemmas for "exactly one issue" claims -/

theorem countP_flatMap_zero {α : Type} (l : List α) (f : α → List Issue)
    (p : Issue → Bool) (h : ∀ y ∈ l, (f y).countP p = 0) :
    (l.flatMap f).countP p = 0 := by
  induction l with
  | nil => rfl
  | cons hd tl ih =>
    rw [List.flatMap_cons, List.countP_append, h hd (List.mem_cons_self hd tl),
      ih (fun y hy => h y (List.mem_cons_of_mem hd hy))]

/-- If exactly one element of `l` satisfies `q` — and `x` is such an
element — while `f` contributes no `p`-issues for the `q`-failing
elements, the `p`-count of the flattened issues is `f x`'s. -/
theorem countP_flatMap_single {α : Type} (l : List α) (f : α → List Issue)
    (p : Issue → Bool) (q : α → Bool) (x : α) (hx : x ∈ l) (hqx : q x = true)
    (hone : l.countP q = 1)
    (hzero : ∀ y ∈ l, q y = false → (f y).countP p = 0) :
    (l.flatMap f).countP p = (f x).countP p := by
  induction l with
  | nil => cases hx
  | cons hd tl ih =>
    rw [List.flatMap_cons, List.countP_append]
    rw [List.countP_cons] at hone
    by_cases hq : q hd
    · have htl : tl.countP q = 0 := by
        rw [if_pos hq] at hone
        omega
      have hxhd : x = hd := by
        rcases List.mem_cons.mp hx with h | h
        · exact h
        · exfalso
          have := List.countP_eq_zero.mp htl x h
          rw [hqx] at this
          exact this rfl
      subst hxhd
      have hrest : (tl.flatMap f).countP p = 0 := by
        refine countP_flatMap_zero tl f p (fun y hy => ?_)
        refine hzero y (List.mem_cons_of_mem x hy) ?_
        have := List.countP_eq_zero.mp htl y hy
        exact Bool.not_eq_true _ ▸ (by simpa using this)
      omega
    · have hx' : x ∈ tl := by
        rcases List.mem_cons.mp hx with h | h
        · exfalso; rw [h] at hqx; exact hq hqx
        · exact h
      have hhd : (f hd).countP p = 0 :=
        hzero hd (List.mem_cons_self hd tl) (by simpa using hq)
      rw [if_neg hq] at hone
      rw [hhd, ih hx' (by omega) (fun y hy hqy => hzero y (List.mem_cons_of_mem hd hy) hqy)]
      omega

/-! ## Per-phase issue characterizations -/

def cardinalityCodes : List String :=
  ["CAP_CATEGORY_MAX_CHILDREN", "CAP_CATEGORY_MIN_CHILDREN",
   "CAPABILITY_MAX_CHILDREN", "CAPABILITY_MIN_CHILDREN",
   "SUBCAPABILITY_MAX_CHILDREN", "SUBCAPABILITY_MIN_CHILDREN",
   "PROGRAMME_MAX_PROJECTS"]

theorem mem_ite_sub {α : Type} {c : Prop} [Decidable c] {l1 l2 : List α} {a : α}
    (h : a ∈ (if c then l1 else l2)) : a ∈ l1 ∨ a ∈ l2 := by
  split at h
  · exact Or.inl h
  · exact Or.inr h

theorem cardinalityIssue_char (nodes : List Node) (n : Node) :
    ∀ i ∈ cardinalityIssue nodes n,
      i.target = nodeTarget n.id ∧ i.code ∈ cardinalityCodes := by
  intro i hi
  simp only [cardinalityIssue] at hi
  repeat' first
    | (exact absurd hi (List.not_mem_nil i))
    | (replace hi := mem_ite_sub hi)
    | (rw [List.mem_append] at hi)
    | (rw [List.mem_singleton] at hi; subst hi)
    | (rcases hi with hi | hi)
  all_goals exact ⟨rfl, by simp [err, warn, cardinalityCodes]⟩

def versionMismatchCodes : List String :=
  ["COMPONENT_TYPE_VERSION_MISMATCH", "GROUP_TYPE_VERSION_MISMATCH",
   "EDGE_TYPE_VERSION_MISMATCH"]

theorem registryIssues_char (registry : Registry) :
    ∀ i ∈ registryIssues registry,
      i.code = "REGISTRY_MISSING" ∧ i.target = diagramTarget := by
  intro i hi
  simp only [registryIssues] at hi
  repeat' first
    | (exact absurd hi (List.not_mem_nil i))
    | (replace hi := mem_ite_sub hi)
    | (rw [List.mem_singleton] at hi; subst hi)
    | (rcases hi with hi | hi)
  all_goals exact ⟨rfl, rfl⟩

theorem diagramTypeIssues_char (dt : Option String) :
    ∀ i ∈ diagramTypeIssues dt,
      (i.code = "DIAGRAM_TYPE_MISSING" ∨ i.code = "DIAGRAM_TYPE_UNKNOWN") ∧
      i.target = diagramTarget := by
  intro i hi
  unfold diagramTypeIssues at hi
  repeat' first
    | (exact absurd hi (List.not_mem_nil i))
    | (rw [List.mem_singleton] at hi; subst hi)
    | (split at hi)
  all_goals exact ⟨by simp [err], rfl⟩

def nodeIssueCodes : List String :=
  ["GROUP_UNKNOWN_TYPE", "GROUP_TYPE_VERSION_MISSING", "GROUP_TYPE_VERSION_INVALID",
   "GROUP_TYPE_REGISTRY_VERSION_INVALID", "GROUP_TYPE_VERSION_MISMATCH",
   "NODE_UNTYPED", "COMPONENT_UNKNOWN_TYPE", "COMPONENT_TYPE_VERSION_MISSING",
   "COMPONENT_TYPE_VERSION_INVALID", "COMPONENT_TYPE_REGISTRY_VERSION_INVALID",
   "COMPONENT_TYPE_VERSION_MISMATCH", "COMPONENT_ATTRIBUTES_INVALID"]

theorem nodeIssue_char (registryReady : Bool) (registry : Registry) (n : Node) :
    ∀ i ∈ nodeIssue registryReady registry n,
      i.code ∈ nodeIssueCodes ∧
      (i.target = nodeTarget n.id ∨ i.target = diagramTarget) ∧
      (i.code ∈ versionMismatchCodes →
        i.severity = "WARNING" ∧ i.target = nodeTarget n.id) := by
  intro i hi
  simp only [nodeIssue, groupNodeIssues, componentNodeIssues] at hi
  repeat' first
    | (exact absurd hi (List.not_mem_nil i))
    | (replace hi := mem_ite_sub hi)
    | (rw [List.mem_append] at hi)
    | (rw [List.mem_singleton] at hi; subst hi)
    | (rcases hi with hi | hi)
    | (split at hi)
  all_goals
    refine ⟨by simp [err, warn, nodeIssueCodes], by simp [err, warn], ?_⟩
  all_goals intro hc
  all_goals simp [err, warn, versionMismatchCodes] at hc ⊢

def nestingCodes : List String :=
  ["GROUP_MISSING_PARENT", "GROUP_INVALID_PARENT", "GROUP_NESTING_INVALID",
   "GROUP_CHILD_TYPE_INVALID"]

theorem nestingIssue_char (registryReady : Bool) (registry : Registry)
    (nodeById : List (String × Node)) (n : Node) :
    ∀ i ∈ nestingIssue registryReady registry nodeById n,
      i.code ∈ nestingCodes ∧ i.target = nodeTarget n.id ∧ i.severity = "ERROR" := by
  intro i hi
  simp only [nestingIssue] at hi
  repeat' first
    | (exact absurd hi (List.not_mem_nil i))
    | (replace hi := mem_ite_sub hi)
    | (rw [List.mem_append] at hi)
    | (rw [List.mem_singleton] at hi; subst hi)
    | (rcases hi with hi | hi)
    | (split at hi)
  all_goals exact ⟨by simp [err, nestingCodes], rfl, rfl⟩

def structuralCodes : List String :=
  ["CAP_CATEGORY_PARENT_INVALID", "CAPABILITY_PARENT_INVALID",
   "SUBCAPABILITY_PARENT_INVALID", "BUSINESS_PROCESS_PARENT_INVALID",
   "APP_CATEGORY_PARENT_INVALID", "APPLICATION_PARENT_INVALID",
   "PROG_CATEGORY_PARENT_INVALID", "PROGRAMME_PARENT_INVALID",
   "PROJECT_PARENT_INVALID"]

theorem structuralIssue_char (nodeById : List (String × Node)) (d : String) (n : Node) :
    ∀ i ∈ structuralIssue nodeById d n,
      i.code ∈ structuralCodes ∧ i.target = nodeTarget n.id ∧ i.severity = "ERROR" := by
  intro i hi
  simp only [structuralIssue] at hi
  repeat' first
    | (exact absurd hi (List.not_mem_nil i))
    | (replace hi := mem_ite_sub hi)
    | (rw [List.mem_append] at hi)
    | (rw [List.mem_singleton] at hi; subst hi)
    | (rcases hi with hi | hi)
  all_goals exact ⟨by simp [err, structuralCodes], rfl, rfl⟩

def techCodes : List String :=
  ["TECH_LAYERS_MISSING", "TECH_LANE_MAX_ELEMENTS", "TECH_LANE_MAX_GROUPS"]

theorem techLayerIssues_char (nodes : List Node) :
    ∀ i ∈ techLayerIssues nodes, i.code ∈ techCodes := by
  intro i hi
  simp only [techLayerIssues, techLaneIssues] at hi
  repeat' first
    | (exact absurd hi (List.not_mem_nil i))
    | (replace hi := mem_ite_sub hi)
    | (rw [List.mem_append] at hi)
    | (rw [List.mem_flatMap] at hi)
    | (obtain ⟨w, -, hi⟩ := hi)
    | (rw [List.mem_singleton] at hi; subst hi)
    | (rcases hi with hi | hi)
  all_goals simp [err, techCodes]

def edgeIssueCodes : List String :=
  ["EDGE_MISSING_ENDPOINT", "EDGE_SOURCE_INVALID", "EDGE_TARGET_INVALID",
   "EDGE_TYPE_ID_MISSING", "EDGE_TYPE_UNKNOWN", "EDGE_TYPE_VERSION_MISSING",
   "EDGE_TYPE_VERSION_INVALID", "EDGE_TYPE_REGISTRY_VERSION_INVALID",
   "EDGE_TYPE_VERSION_MISMATCH", "GUIDED_EDGE_INVALID",
   "TECH_EDGE_TARGET_NOT_IN_LANE", "EDGE_ENDPOINT_NOT_COMPONENT",
   "EDGE_TYPE_NOT_ALLOWED", "EDGE_ENDPOINTS_INCOMPATIBLE"]

theorem edgeIssue_char (registry : Registry) (registryReady : Bool)
    (nodeById : List (String × Node)) (nodes : List Node)
    (dt : Option String) (e : Edge) :
    ∀ i ∈ edgeIssue registry registryReady nodeById nodes dt e,
      i.code ∈ edgeIssueCodes ∧
      (i.target = edgeTarget e.id ∨ i.target = diagramTarget) ∧
      (i.code = "EDGE_TYPE_VERSION_MISMATCH" →
        i.severity = "WARNING" ∧ i.target = edgeTarget e.id) ∧
      (i.code = "GUIDED_EDGE_INVALID" →
        i.severity = "ERROR" ∧ i.target = edgeTarget e.id) := by
  intro i hi
  simp only [edgeIssue, edgeVersionIssues, edgeGuidedTail, edgeLegacyTail] at hi
  repeat' first
    | (exact absurd hi (List.not_mem_nil i))
    | (replace hi := mem_ite_sub hi)
    | (rw [List.mem_append] at hi)
    | (rw [List.mem_singleton] at hi; subst hi)
    | (rcases hi with hi | hi)
    | (split at hi)
  all_goals
    refine ⟨by simp [err, warn, edgeIssueCodes], by simp [err, warn], ?_, ?_⟩
  all_goals intro hc
  all_goals simp [err, warn] at hc ⊢

theorem programmeIssue_char (edges : List Edge) (n : Node) :
    ∀ i ∈ programmeIssue edges n,
      i.code = "PROGRAMME_MISSING_TARGETS" ∧ i.target = nodeTarget n.id ∧
        i.severity = "WARNING" := by
  intro i hi
  simp only [programmeIssue] at hi
  repeat' first
    | (exact absurd hi (List.not_mem_nil i))
    | (replace hi := mem_ite_sub hi)
    | (rw [List.mem_singleton] at hi; subst hi)
    | (rcases hi with hi | hi)
  all_goals exact ⟨rfl, rfl, rfl⟩

theorem traceabilityIssue_char (edges : List Edge) (n : Node) :
    ∀ i ∈ traceabilityIssue edges n,
      i.code = "APPLICATION_UNLINKED" ∧ i.target = nodeTarget n.id ∧
        i.severity = "WARNING" := by
  intro i hi
  simp only [traceabilityIssue] at hi
  repeat' first
    | (exact absurd hi (List.not_mem_nil i))
    | (replace hi := mem_ite_sub hi)
    | (rw [List.mem_singleton] at hi; subst hi)
    | (rcases hi with hi | hi)
  all_goals exact ⟨rfl, rfl, rfl⟩

/-! ## Claim C5 — category cardinality boundaries -/

/-- The number of capability-group children of a node, exactly as the
cardinality rule computes it. -/
def capabilityChildCount (nodes : List Node) (id : String) : Nat :=
  ((childrenOf nodes id).filter (fun c =>
    isGroupNode c ∧ c.data.groupTypeId = some EA_GROUP_TYPES.CAP_CAPABILITY)).length

/-- Any cardinality-class issue aimed at the given node. -/
def isCardIssueFor (catId : String) (i : Issue) : Bool :=
  decide (i.code ∈ cardinalityCodes ∧ i.target = nodeTarget catId)

def isMaxChildrenErrorFor (catId : String) (i : Issue) : Bool :=
  decide (i.code = "CAP_CATEGORY_MAX_CHILDREN" ∧ i.severity = "ERROR" ∧
    i.target = nodeTarget catId)

def isMinChildrenWarningFor (catId : String) (i : Issue) : Bool :=
  decide (i.code = "CAP_CATEGORY_MIN_CHILDREN" ∧ i.severity = "WARNING" ∧
    i.target = nodeTarget catId)

/-- Every phase except the cardinality loop contributes no issue whose
code is a cardinality code aimed at the (unique) node `cat`; hence the
whole validator's count of such issues is the cardinality loop's count
for `cat` alone. -/
theorem countP_validate_cardinality (inp : VInput) (cat : Node) (d : String)
    (p : Issue → Bool)
    (hp1 : ∀ i, p i = true → i.code ∈ cardinalityCodes)
    (hp2 : ∀ i, p i = true → i.target = nodeTarget cat.id)
    (hdt : inp.diagramTypeId = some d) (hdne : d ≠ "") (hknown : isKnownDiagramType d)
    (hmem : cat ∈ inp.nodes)
    (huniq : inp.nodes.countP (fun y => decide (y.id = cat.id)) = 1) :
    (validateDiagram inp).countP p = (cardinalityIssue inp.nodes cat).countP p := by
  have hDisjNode : ∀ c ∈ nodeIssueCodes, c ∉ cardinalityCodes := by decide
  have hDisjNest : ∀ c ∈ nestingCodes, c ∉ cardinalityCodes := by decide
  have hDisjStruct : ∀ c ∈ structuralCodes, c ∉ cardinalityCodes := by decide
  have hDisjTech : ∀ c ∈ techCodes, c ∉ cardinalityCodes := by decide
  have hDisjEdge : ∀ c ∈ edgeIssueCodes, c ∉ cardinalityCodes := by decide
  rw [countP_validateDiagram]
  unfold rawIssues
  rw [hdt]
  simp only [List.countP_append]
  have hreg : (registryIssues inp.registry).countP p = 0 := by
    refine List.countP_eq_zero.mpr (fun i hi hp => ?_)
    have hc := (registryIssues_char inp.registry i hi).1
    have := hp1 i hp
    rw [hc] at this
    exact absurd this (by decide)
  have hdtc : (diagramTypeIssues (some d)).countP p = 0 := by
    refine List.countP_eq_zero.mpr (fun i hi hp => ?_)
    have hc := (diagramTypeIssues_char (some d) i hi).1
    have hmemc := hp1 i hp
    rcases hc with hc | hc <;> rw [hc] at hmemc <;> exact absurd hmemc (by decide)
  have hnode : (inp.nodes.flatMap (nodeIssue (inp.registry.status = "ready")
      inp.registry)).countP p = 0 := by
    refine countP_flatMap_zero _ _ _ (fun y _ => ?_)
    refine List.countP_eq_zero.mpr (fun i hi hp => ?_)
    have hc := (nodeIssue_char _ inp.registry y i hi).1
    exact absurd (hp1 i hp) (hDisjNode i.code hc)
  have hnest : (inp.nodes.flatMap (nestingIssue (inp.registry.status = "ready")
      inp.registry (nodeMapOf inp.nodes))).countP p = 0 := by
    refine countP_flatMap_zero _ _ _ (fun y _ => ?_)
    refine List.countP_eq_zero.mpr (fun i hi hp => ?_)
    have hc := (nestingIssue_char _ inp.registry _ y i hi).1
    exact absurd (hp1 i hp) (hDisjNest i.code hc)
  have hstruct : (inp.nodes.flatMap (structuralIssue (nodeMapOf inp.nodes) d)).countP p = 0 := by
    refine countP_flatMap_zero _ _ _ (fun y _ => ?_)
    refine List.countP_eq_zero.mpr (fun i hi hp => ?_)
    have hc := (structuralIssue_char _ d y i hi).1
    exact absurd (hp1 i hp) (hDisjStruct i.code hc)
  have htech : (if d = "technology-architecture" then techLayerIssues inp.nodes
      else []).countP p = 0 := by
    split
    · refine List.countP_eq_zero.mpr (fun i hi hp => ?_)
      have hc := techLayerIssues_char inp.nodes i hi
      exact absurd (hp1 i hp) (hDisjTech i.code hc)
    · rfl
  have hedge : (inp.edges.flatMap (edgeIssue inp.registry (inp.registry.status = "ready")
      (nodeMapOf inp.nodes) inp.nodes (some d))).countP p = 0 := by
    refine countP_flatMap_zero _ _ _ (fun y _ => ?_)
    refine List.countP_eq_zero.mpr (fun i hi hp => ?_)
    have hc := (edgeIssue_char inp.registry _ _ inp.nodes (some d) y i hi).1
    exact absurd (hp1 i hp) (hDisjEdge i.code hc)
  have hprog : (if some d = some "programme-portfolio" then
      inp.nodes.flatMap (programmeIssue inp.edges) else []).countP p = 0 := by
    split
    · refine countP_flatMap_zero _ _ _ (fun y _ => ?_)
      refine List.countP_eq_zero.mpr (fun i hi hp => ?_)
      have hc := (programmeIssue_char inp.edges y i hi).1
      have := hp1 i hp
      rw [hc] at this
      exact absurd this (by decide)
    · rfl
  have htrace : (if some d = some "cross-domain-traceability" then
      inp.nodes.flatMap (traceabilityIssue inp.edges) else []).countP p = 0 := by
    split
    · refine countP_flatMap_zero _ _ _ (fun y _ => ?_)
      refine List.countP_eq_zero.mpr (fun i hi hp => ?_)
      have hc := (traceabilityIssue_char inp.edges y i hi).1
      have := hp1 i hp
      rw [hc] at this
      exact absurd this (by decide)
    · rfl
  have hcard : ((if d ≠ "" ∧ isKnownDiagramType d then
        inp.nodes.flatMap (structuralIssue (nodeMapOf inp.nodes) d) ++
        inp.nodes.flatMap (cardinalityIssue inp.nodes) ++
        (if d = "technology-architecture" then techLayerIssues inp.nodes else [])
      else [])).countP p = (cardinalityIssue inp.nodes cat).countP p := by
    rw [if_pos ⟨hdne, hknown⟩]
    simp only [List.countP_append]
    rw [hstruct, htech]
    have hsingle : (inp.nodes.flatMap (cardinalityIssue inp.nodes)).countP p =
        (cardinalityIssue inp.nodes cat).countP p := by
      refine countP_flatMap_single inp.nodes _ p (fun y => decide (y.id = cat.id)) cat hmem
        (by simp) huniq (fun y _ hq => ?_)
      refine List.countP_eq_zero.mpr (fun i hi hp => ?_)
      have hc := (cardinalityIssue_char inp.nodes y i hi).1
      have ht := hp2 i hp
      rw [hc] at ht
      have : y.id = cat.id := by
        simpa [nodeTarget] using ht
      simp [this] at hq
    omega
  rw [hreg, hdtc, hnode, hnest, hcard, hedge, hprog, htrace]
  omega

/-- On a category group, the cardinality loop reduces to the category
max/min check. -/
theorem cardinalityIssue_cat_eval (nodes : List Node) (cat : Node)
    (hid : cat.id ≠ "") (hgroup : isGroupNode cat)
    (hgt : cat.data.groupTypeId = some EA_GROUP_TYPES.CAP_CATEGORY) :
    cardinalityIssue nodes cat =
      (if capabilityChildCount nodes cat.id > 5 then
        [err "CAP_CATEGORY_MAX_CHILDREN"
          "Category / Department can contain at most 5 Capabilities." (nodeTarget cat.id)]
      else if capabilityChildCount nodes cat.id = 0 then
        [warn "CAP_CATEGORY_MIN_CHILDREN"
          "Category / Department has no Capabilities. Add at least 1." (nodeTarget cat.id)]
      else []) := by
  simp [cardinalityIssue, hid, hgroup, hgt, capabilityChildCount,
    EA_GROUP_TYPES.CAP_CATEGORY, EA_GROUP_TYPES.CAP_CAPABILITY,
    EA_GROUP_TYPES.CAP_SUBCAPABILITY, EA_GROUP_TYPES.PROG_PROGRAMME]

/-- **C5.** For every category group (`ea.catDept`) in a known diagram
type: with exactly 5 capability children the validator reports zero
cardinality-class issues for it; with 6 it reports exactly one ERROR of
the max-children class (and no other cardinality issue); with 0 it
reports exactly one WARNING of the min-children class (and no other
cardinality issue). -/
theorem C5_category_cardinality (inp : VInput) (cat : Node) (d : String)
    (hdt : inp.diagramTypeId = some d) (hdne : d ≠ "") (hknown : isKnownDiagramType d)
    (hmem : cat ∈ inp.nodes) (hid : cat.id ≠ "")
    (huniq : inp.nodes.countP (fun y => decide (y.id = cat.id)) = 1)
    (hgroup : isGroupNode cat)
    (hgt : cat.data.groupTypeId = some EA_GROUP_TYPES.CAP_CATEGORY) :
    (capabilityChildCount inp.nodes cat.id = 5 →
      (validateDiagram inp).countP (isCardIssueFor cat.id) = 0) ∧
    (capabilityChildCount inp.nodes cat.id = 6 →
      (validateDiagram inp).countP (isMaxChildrenErrorFor cat.id) = 1 ∧
      (validateDiagram inp).countP (isCardIssueFor cat.id) = 1) ∧
    (capabilityChildCount inp.nodes cat.id = 0 →
      (validateDiagram inp).countP (isMinChildrenWarningFor cat.id) = 1 ∧
      (validateDiagram inp).countP (isCardIssueFor cat.id) = 1) := by
  have hCard := countP_validate_cardinality inp cat d (isCardIssueFor cat.id)
    (fun i hp => by simp [isCardIssueFor] at hp; exact hp.1)
    (fun i hp => by simp [isCardIssueFor] at hp; exact hp.2)
    hdt hdne hknown hmem huniq
  have hMax := countP_validate_cardinality inp cat d (isMaxChildrenErrorFor cat.id)
    (fun i hp => by
      simp [isMaxChildrenErrorFor] at hp
      rw [hp.1]; decide)
    (fun i hp => by simp [isMaxChildrenErrorFor] at hp; exact hp.2.2)
    hdt hdne hknown hmem huniq
  have hMin := countP_validate_cardinality inp cat d (isMinChildrenWarningFor cat.id)
    (fun i hp => by
      simp [isMinChildrenWarningFor] at hp
      rw [hp.1]; decide)
    (fun i hp => by simp [isMinChildrenWarningFor] at hp; exact hp.2.2)
    hdt hdne hknown hmem huniq
  have heval := cardinalityIssue_cat_eval inp.nodes cat hid hgroup hgt
  refine ⟨fun hk => ?_, fun hk => ⟨?_, ?_⟩, fun hk => ⟨?_, ?_⟩⟩
  · rw [hCard, heval, hk]
    simp
  · rw [hMax, heval, hk]
    simp [isMaxChildrenErrorFor, err]
  · rw [hCard, heval, hk]
    simp [isCardIssueFor, err, cardinalityCodes]
  · rw [hMin, heval, hk]
    simp [isMinChildrenWarningFor, warn]
  · rw [hCard, heval, hk]
    simp [isCardIssueFor, warn, cardinalityCodes]

/-- The category group used by the C5 witness. -/
def c5cat : Node :=
  { id := "cat", type := some "group",
    data := { kind := some "group", groupTypeId := some "ea.catDept" } }

/-- A capability group nested under the witness category. -/
def c5cap (s : String) : Node :=
  { id := s, type := some "group", parentNode := some "cat",
    data := { kind := some "group", groupTypeId := some "ea.capability" } }

def c5inp5 : VInput :=
  { registry := { status := "ready" }, diagramTypeId := some "capability-map",
    nodes := [c5cat, c5cap "c1", c5cap "c2", c5cap "c3", c5cap "c4", c5cap "c5"] }

def c5inp6 : VInput :=
  { registry := { status := "ready" }, diagramTypeId := some "capability-map",
    nodes := [c5cat, c5cap "c1", c5cap "c2", c5cap "c3", c5cap "c4", c5cap "c5",
      c5cap "c6"] }

def c5inp0 : VInput :=
  { registry := { status := "ready" }, diagramTypeId := some "capability-map",
    nodes := [c5cat] }

/-- Witness for C5 at concrete 5-, 6- and 0-child categories. -/
theorem C5_witness :
    (validateDiagram c5inp5).countP (isCardIssueFor "cat") = 0 ∧
    (validateDiagram c5inp6).countP (isMaxChildrenErrorFor "cat") = 1 ∧
    (validateDiagram c5inp0).countP (isMinChildrenWarningFor "cat") = 1 := by
  refine ⟨?_, ?_, ?_⟩
  · exact (C5_category_cardinality c5inp5 c5cat "capability-map" rfl (by decide)
      (by decide) (by decide) (by decide) (by decide) (by decide) rfl).1 (by decide)
  · exact ((C5_category_cardinality c5inp6 c5cat "capability-map" rfl (by decide)
      (by decide) (by decide) (by decide) (by decide) (by decide) rfl).2.1 (by decide)).1
  · exact ((C5_category_cardinality c5inp0 c5cat "capability-map" rfl (by decide)
      (by decide) (by decide) (by decide) (by decide) (by decide) rfl).2.2 (by decide)).1

/-! ## Claim C4 — guided-edge validation -/

def isGuidedInvalidErrorFor (eid : String) (i : Issue) : Bool :=
  decide (i.code = "GUIDED_EDGE_INVALID" ∧ i.severity = "ERROR" ∧
    i.target = edgeTarget eid)

/-- `GUIDED_EDGE_INVALID` issues aimed at the (unique) edge `e` can only
come from `e`'s own iteration of the edge loop. -/
theorem countP_validate_guided (inp : VInput) (e : Edge) (p : Issue → Bool)
    (hp1 : ∀ i, p i = true → i.code = "GUIDED_EDGE_INVALID")
    (hp2 : ∀ i, p i = true → i.target = edgeTarget e.id)
    (hmem : e ∈ inp.edges)
    (huniq : inp.edges.countP (fun y => decide (y.id = e.id)) = 1) :
    (validateDiagram inp).countP p =
      (edgeIssue inp.registry (inp.registry.status = "ready") (nodeMapOf inp.nodes)
        inp.nodes inp.diagramTypeId e).countP p := by
  rw [countP_validateDiagram]
  unfold rawIssues
  simp only [List.countP_append]
  have hreg : (registryIssues inp.registry).countP p = 0 := by
    refine List.countP_eq_zero.mpr (fun i hi hp => ?_)
    have hc := (registryIssues_char inp.registry i hi).1
    have := hp1 i hp
    rw [hc] at this
    exact absurd this (by decide)
  have hdtc : (diagramTypeIssues inp.diagramTypeId).countP p = 0 := by
    refine List.countP_eq_zero.mpr (fun i hi hp => ?_)
    have hc := (diagramTypeIssues_char inp.diagramTypeId i hi).1
    have hcode := hp1 i hp
    rcases hc with hc | hc <;> rw [hc] at hcode <;> exact absurd hcode (by decide)
  have hnode : (inp.nodes.flatMap (nodeIssue (inp.registry.status = "ready")
      inp.registry)).countP p = 0 := by
    refine countP_flatMap_zero _ _ _ (fun y _ => ?_)
    refine List.countP_eq_zero.mpr (fun i hi hp => ?_)
    have hc := (nodeIssue_char _ inp.registry y i hi).1
    have hcode := hp1 i hp
    rw [hcode] at hc
    exact absurd hc (by decide)
  have hnest : (inp.nodes.flatMap (nestingIssue (inp.registry.status = "ready")
      inp.registry (nodeMapOf inp.nodes))).countP p = 0 := by
    refine countP_flatMap_zero _ _ _ (fun y _ => ?_)
    refine List.countP_eq_zero.mpr (fun i hi hp => ?_)
    have hc := (nestingIssue_char _ inp.registry _ y i hi).1
    have hcode := hp1 i hp
    rw [hcode] at hc
    exact absurd hc (by decide)
  have hmid : (match inp.diagramTypeId with
      | some d =>
        if d ≠ "" ∧ isKnownDiagramType d then
          inp.nodes.flatMap (structuralIssue (nodeMapOf inp.nodes) d) ++
          inp.nodes.flatMap (cardinalityIssue inp.nodes) ++
          (if d = "technology-architecture" then techLayerIssues inp.nodes else [])
        else []
      | none => ([] : List Issue)).countP p = 0 := by
    have hmidSome : ∀ d : String,
        (if d ≠ "" ∧ isKnownDiagramType d then
          inp.nodes.flatMap (structuralIssue (nodeMapOf inp.nodes) d) ++
          inp.nodes.flatMap (cardinalityIssue inp.nodes) ++
          (if d = "technology-architecture" then techLayerIssues inp.nodes else [])
        else []).countP p = 0 := by
      intro d
      split
      · simp only [List.countP_append]
        have h1 : (inp.nodes.flatMap (structuralIssue (nodeMapOf inp.nodes) d)).countP p = 0 := by
          refine countP_flatMap_zero _ _ _ (fun y _ => ?_)
          refine List.countP_eq_zero.mpr (fun i hi hp => ?_)
          have hc := (structuralIssue_char _ d y i hi).1
          have hcode := hp1 i hp
          rw [hcode] at hc
          exact absurd hc (by decide)
        have h2 : (inp.nodes.flatMap (cardinalityIssue inp.nodes)).countP p = 0 := by
          refine countP_flatMap_zero _ _ _ (fun y _ => ?_)
          refine List.countP_eq_zero.mpr (fun i hi hp => ?_)
          have hc := (cardinalityIssue_char inp.nodes y i hi).2
          have hcode := hp1 i hp
          rw [hcode] at hc
          exact absurd hc (by decide)
        have h3 : (if d = "technology-architecture" then techLayerIssues inp.nodes
            else []).countP p = 0 := by
          split
          · refine List.countP_eq_zero.mpr (fun i hi hp => ?_)
            have hc := techLayerIssues_char inp.nodes i hi
            have hcode := hp1 i hp
            rw [hcode] at hc
            exact absurd hc (by decide)
          · rfl
        omega
      · rfl
    cases hO : inp.diagramTypeId with
    | none => rfl
    | some d => exact hmidSome d
  have hprog : (if inp.diagramTypeId = some "programme-portfolio" then
      inp.nodes.flatMap (programmeIssue inp.edges) else []).countP p = 0 := by
    split
    · refine countP_flatMap_zero _ _ _ (fun y _ => ?_)
      refine List.countP_eq_zero.mpr (fun i hi hp => ?_)
      have hc := (programmeIssue_char inp.edges y i hi).1
      have hcode := hp1 i hp
      rw [hcode] at hc
      exact absurd hc.symm (by decide)
    · rfl
  have htrace : (if inp.diagramTypeId = some "cross-domain-traceability" then
      inp.nodes.flatMap (traceabilityIssue inp.edges) else []).countP p = 0 := by
    split
    · refine countP_flatMap_zero _ _ _ (fun y _ => ?_)
      refine List.countP_eq_zero.mpr (fun i hi hp => ?_)
      have hc := (traceabilityIssue_char inp.edges y i hi).1
      have hcode := hp1 i hp
      rw [hcode] at hc
      exact absurd hc.symm (by decide)
    · rfl
  have hedge : (inp.edges.flatMap (edgeIssue inp.registry (inp.registry.status = "ready")
      (nodeMapOf inp.nodes) inp.nodes inp.diagramTypeId)).countP p =
      (edgeIssue inp.registry (inp.registry.status = "ready") (nodeMapOf inp.nodes)
        inp.nodes inp.diagramTypeId e).countP p := by
    refine countP_flatMap_single inp.edges _ p (fun y => decide (y.id = e.id)) e hmem
      (by simp) huniq (fun y _ hq => ?_)
    refine List.countP_eq_zero.mpr (fun i hi hp => ?_)
    have hc := (edgeIssue_char inp.registry _ _ inp.nodes inp.diagramTypeId y i hi).2.2.2
      (hp1 i hp)
    have ht := hp2 i hp
    rw [hc.2] at ht
    have : y.id = e.id := by simpa [edgeTarget] using ht
    simp [this] at hq
  rw [hreg, hdtc, hnode, hnest, hmid, hedge, hprog, htrace]
  omega

/-- The version chain never yields a `GUIDED_EDGE_INVALID` issue. -/
theorem edgeVersionIssues_guided_zero (g : String) (et : EdgeType) (e : Edge)
    (eid : String) :
    (edgeVersionIssues g et e).countP (isGuidedInvalidErrorFor eid) = 0 := by
  unfold edgeVersionIssues
  repeat' split
  all_goals simp [isGuidedInvalidErrorFor, err, warn]

/-- The guided tail contributes exactly one `GUIDED_EDGE_INVALID` ERROR
for the edge when resolution misses or disagrees, else none. -/
theorem edgeGuidedTail_count (nodeById : List (String × Node)) (nodes : List Node)
    (dt : Option String) (g : String) (e : Edge) (target : Node) :
    (edgeGuidedTail nodeById nodes dt g e target).countP (isGuidedInvalidErrorFor e.id) =
      (if resolveGuidedConnection dt nodes e.source e.target = none ∨
          (resolveGuidedConnection dt nodes e.source e.target).map
            (fun r => r.edgeTypeId) ≠ some g
        then 1 else 0) := by
  unfold edgeGuidedTail
  rw [List.countP_append]
  have htech : (if dt = some "technology-architecture" ∧
      g = EA_EDGE_TYPES.APPLICATION_TO_TECH then
        (match (ancestorWalk nodeById (nodes.length + 1) target).find? (fun n =>
          match n.data.groupTypeId with
          | some gt => gt.startsWith "tech.layer."
          | none => false) with
        | none =>
          [err "TECH_EDGE_TARGET_NOT_IN_LANE"
            "Application → Technology edges must target a Technology Element placed inside a technology layer swimlane."
            (edgeTarget e.id)]
        | some _ => [])
      else []).countP (isGuidedInvalidErrorFor e.id) = 0 := by
    repeat' split
    all_goals simp [isGuidedInvalidErrorFor, err]
  rw [htech]
  split
  · simp [isGuidedInvalidErrorFor, err]
  · simp

/-- Under the hypotheses that let an edge reach the guided check, the
edge loop's `GUIDED_EDGE_INVALID` count is decided by the resolver. -/
theorem edgeIssue_guided_eval (registry : Registry) (nodeById : List (String × Node))
    (nodes : List Node) (dt : Option String) (e : Edge) (s t : Node) (g : String)
    (et : EdgeType)
    (hid : e.id ≠ "")
    (hs : jsGet nodeById e.source = some s)
    (ht : jsGet nodeById e.target = some t)
    (hsok : (s.type = some "component" ∧ s.data.kind = some "component") ∨
      ((s.type = some "group" ∨ s.data.kind = some "group") ∧ truthy s.data.groupTypeId))
    (htok : (t.type = some "component" ∧ t.data.kind = some "component") ∨
      ((t.type = some "group" ∨ t.data.kind = some "group") ∧ truthy t.data.groupTypeId))
    (hg : e.data.edgeTypeId = some g) (hgne : g ≠ "")
    (hguided : g ∈ guidedEdgeTypeIds)
    (hreg : jsGet registry.edgeTypesById g = some et) :
    (edgeIssue registry true nodeById nodes dt e).countP (isGuidedInvalidErrorFor e.id) =
      (if resolveGuidedConnection dt nodes e.source e.target = none ∨
          (resolveGuidedConnection dt nodes e.source e.target).map
            (fun r => r.edgeTypeId) ≠ some g
        then 1 else 0) := by
  have hsok' : ¬ (¬ (s.type = some "component" ∧ s.data.kind = some "component") ∧
      ¬ ((s.type = some "group" ∨ s.data.kind = some "group") ∧
        truthy s.data.groupTypeId)) := by
    rcases hsok with h | h
    · exact fun hc => hc.1 h
    · exact fun hc => hc.2 h
  have htok' : ¬ (¬ (t.type = some "component" ∧ t.data.kind = some "component") ∧
      ¬ ((t.type = some "group" ∨ t.data.kind = some "group") ∧
        truthy t.data.groupTypeId)) := by
    rcases htok with h | h
    · exact fun hc => hc.1 h
    · exact fun hc => hc.2 h
  have hcontains : guidedEdgeTypeIds.contains g = true := by
    exact List.elem_eq_true_of_mem hguided
  unfold edgeIssue
  rw [if_neg hid, hs, ht]
  simp only [hg]
  rw [if_neg hsok', if_neg htok', if_neg hgne]
  simp only [if_true, hreg, hcontains, if_pos]
  rw [List.countP_append, edgeVersionIssues_guided_zero, edgeGuidedTail_count]
  omega

/-- **C4 (amended).** For every edge that reaches the guided check —
endpoints resolve to typed nodes, the edge type id is non-empty, guided,
and present in the ready registry — the validator emits no
`GUIDED_EDGE_INVALID` issue for that edge when `resolveGuidedConnection`
on its endpoints returns the edge's own type, and exactly one
`GUIDED_EDGE_INVALID` ERROR when resolution returns null or a different
type.  (Edges short-circuited earlier — missing endpoint, unknown or
missing type — get their own ERROR instead, never `GUIDED_EDGE_INVALID`;
that is what the counterexample exhibits.) -/
theorem C4_guided_edge_validation (inp : VInput) (e : Edge) (s t : Node)
    (g : String) (et : EdgeType)
    (hmem : e ∈ inp.edges) (hid : e.id ≠ "")
    (huniq : inp.edges.countP (fun y => decide (y.id = e.id)) = 1)
    (hready : inp.registry.status = "ready")
    (hs : jsGet (nodeMapOf inp.nodes) e.source = some s)
    (ht : jsGet (nodeMapOf inp.nodes) e.target = some t)
    (hsok : (s.type = some "component" ∧ s.data.kind = some "component") ∨
      ((s.type = some "group" ∨ s.data.kind = some "group") ∧ truthy s.data.groupTypeId))
    (htok : (t.type = some "component" ∧ t.data.kind = some "component") ∨
      ((t.type = some "group" ∨ t.data.kind = some "group") ∧ truthy t.data.groupTypeId))
    (hg : e.data.edgeTypeId = some g) (hgne : g ≠ "")
    (hguided : g ∈ guidedEdgeTypeIds)
    (hreg : jsGet inp.registry.edgeTypesById g = some et) :
    ((resolveGuidedConnection inp.diagramTypeId inp.nodes e.source e.target).map
        (fun r => r.edgeTypeId) = some g →
      (validateDiagram inp).countP (isGuidedInvalidErrorFor e.id) = 0) ∧
    ((resolveGuidedConnection inp.diagramTypeId inp.nodes e.source e.target = none ∨
        (resolveGuidedConnection inp.diagramTypeId inp.nodes e.source e.target).map
          (fun r => r.edgeTypeId) ≠ some g) →
      (validateDiagram inp).countP (isGuidedInvalidErrorFor e.id) = 1) := by
  have hcount := countP_validate_guided inp e (isGuidedInvalidErrorFor e.id)
    (fun i hp => by simp [isGuidedInvalidErrorFor] at hp; exact hp.1)
    (fun i hp => by simp [isGuidedInvalidErrorFor] at hp; exact hp.2.2)
    hmem huniq
  have hb : decide (inp.registry.status = "ready") = true := decide_eq_true hready
  rw [hb] at hcount
  have heval := edgeIssue_guided_eval inp.registry (nodeMapOf inp.nodes) inp.nodes
    inp.diagramTypeId e s t g et hid hs ht hsok htok hg hgne hguided hreg
  constructor
  · intro hres
    rw [hcount, heval, if_neg]
    rintro (h | h)
    · rw [h] at hres; simp at hres
    · exact h hres
  · intro hres
    rw [hcount, heval, if_pos hres]

/-- Business-process source node for the C4 witness. -/
def c4bp : Node :=
  { id := "s1", type := some "component",
    data := { kind := some "component", componentTypeId := some "ea.businessProcess",
              componentTypeVersion := some (.fin 1) } }

/-- Application target node for the C4 witness. -/
def c4app : Node :=
  { id := "s2", type := some "component",
    data := { kind := some "component", componentTypeId := some "app.application",
              componentTypeVersion := some (.fin 1) } }

def c4Registry : Registry :=
  { status := "ready",
    edgeTypesById :=
      [("rel.processToApp", { edgeTypeId := "rel.processToApp", version := some (.fin 1) }),
       ("rel.appToTechnology", { edgeTypeId := "rel.appToTechnology", version := some (.fin 1) })] }

/-- A guided edge whose endpoints resolve to its own type. -/
def c4goodEdge : Edge :=
  { id := "e1", source := "s1", target := "s2",
    data := { edgeTypeId := some "rel.processToApp", edgeTypeVersion := some (.fin 1) } }

/-- A guided edge whose endpoints resolve to a *different* guided type. -/
def c4badEdge : Edge :=
  { id := "e1", source := "s1", target := "s2",
    data := { edgeTypeId := some "rel.appToTechnology", edgeTypeVersion := some (.fin 1) } }

def c4inpGood : VInput :=
  { registry := c4Registry, nodes := [c4bp, c4app], edges := [c4goodEdge],
    diagramTypeId := some "capability-map" }

def c4inpBad : VInput :=
  { registry := c4Registry, nodes := [c4bp, c4app], edges := [c4badEdge],
    diagramTypeId := some "capability-map" }

/-- Witness for C4 at a matching and a mismatching guided edge. -/
theorem C4_witness :
    (validateDiagram c4inpGood).countP (isGuidedInvalidErrorFor "e1") = 0 ∧
    (validateDiagram c4inpBad).countP (isGuidedInvalidErrorFor "e1") = 1 := by
  constructor
  · exact (C4_guided_edge_validation c4inpGood c4goodEdge c4bp c4app
      "rel.processToApp" { edgeTypeId := "rel.processToApp", version := some (.fin 1) }
      (by decide) (by decide) (by decide) rfl rfl rfl (by simp [c4bp])
      (by simp [c4app]) rfl (by decide) (by decide) rfl).1 (by decide)
  · exact (C4_guided_edge_validation c4inpBad c4badEdge c4bp c4app
      "rel.appToTechnology" { edgeTypeId := "rel.appToTechnology", version := some (.fin 1) }
      (by decide) (by decide) (by decide) rfl rfl rfl (by simp [c4bp])
      (by simp [c4app]) rfl (by decide) (by decide) rfl).2 (by decide)

/-- A guided-typed edge whose target node does not exist. -/
def c4orphanEdge : Edge :=
  { id := "e1", source := "s1", target := "gone",
    data := { edgeTypeId := some "rel.processToApp", edgeTypeVersion := some (.fin 1) } }

def c4inpOrphan : VInput :=
  { registry := c4Registry, nodes := [c4bp], edges := [c4orphanEdge],
    diagramTypeId := some "capability-map" }

/-- **C4 (counterexample).** An edge of a guided type whose target node
is missing: `resolveGuidedConnection` returns null, yet the validator
emits zero `GUIDED_EDGE_INVALID` issues for the edge (it reports
`EDGE_MISSING_ENDPOINT` instead) — refuting the claim's "resolution
returns null ⇒ exactly one GUIDED_EDGE_INVALID-class ERROR". -/
theorem C4_counterexample :
    c4orphanEdge.data.edgeTypeId = some "rel.processToApp" ∧
    "rel.processToApp" ∈ guidedEdgeTypeIds ∧
    resolveGuidedConnection (some "capability-map") c4inpOrphan.nodes "s1" "gone" = none ∧
    (validateDiagram c4inpOrphan).countP (isGuidedInvalidErrorFor "e1") = 0 ∧
    (validateDiagram c4inpOrphan).countP
      (fun i => decide (i.code = "EDGE_MISSING_ENDPOINT" ∧ i.target = edgeTarget "e1")) = 1 := by
  refine ⟨rfl, by decide, by decide, by decide, by decide⟩

/-! ## Claim C6 — version pinning and mismatch warnings -/

def isMismatchWarningForNode (nid : String) (i : Issue) : Bool :=
  decide (i.code ∈ versionMismatchCodes ∧ i.severity = "WARNING" ∧
    i.target = nodeTarget nid)

def isMismatchNonWarningForNode (nid : String) (i : Issue) : Bool :=
  decide (i.code ∈ versionMismatchCodes ∧ i.severity ≠ "WARNING" ∧
    i.target = nodeTarget nid)

def isMismatchWarningForEdge (eid : String) (i : Issue) : Bool :=
  decide (i.code ∈ versionMismatchCodes ∧ i.severity = "WARNING" ∧
    i.target = edgeTarget eid)

def isMismatchNonWarningForEdge (eid : String) (i : Issue) : Bool :=
  decide (i.code ∈ versionMismatchCodes ∧ i.severity ≠ "WARNING" ∧
    i.target = edgeTarget eid)

/-- Version-mismatch issues aimed (as node issues) at the unique node `n`
can only come from `n`'s own iteration of the node loop. -/
theorem countP_validate_nodeMismatch (inp : VInput) (n : Node) (p : Issue → Bool)
    (hp1 : ∀ i, p i = true → i.code ∈ versionMismatchCodes)
    (hp2 : ∀ i, p i = true → i.target = nodeTarget n.id)
    (hmem : n ∈ inp.nodes)
    (huniq : inp.nodes.countP (fun y => decide (y.id = n.id)) = 1) :
    (validateDiagram inp).countP p =
      (nodeIssue (inp.registry.status = "ready") inp.registry n).countP p := by
  rw [countP_validateDiagram]
  unfold rawIssues
  simp only [List.countP_append]
  have hreg : (registryIssues inp.registry).countP p = 0 := by
    refine List.countP_eq_zero.mpr (fun i hi hp => ?_)
    have hc := (registryIssues_char inp.registry i hi).1
    have := hp1 i hp
    rw [hc] at this
    exact absurd this (by decide)
  have hdtc : (diagramTypeIssues inp.diagramTypeId).countP p = 0 := by
    refine List.countP_eq_zero.mpr (fun i hi hp => ?_)
    have hc := (diagramTypeIssues_char inp.diagramTypeId i hi).1
    have hcode := hp1 i hp
    rcases hc with hc | hc <;> rw [hc] at hcode <;> exact absurd hcode (by decide)
  have hnode : (inp.nodes.flatMap (nodeIssue (inp.registry.status = "ready")
      inp.registry)).countP p =
      (nodeIssue (inp.registry.status = "ready") inp.registry n).countP p := by
    refine countP_flatMap_single inp.nodes _ p (fun y => decide (y.id = n.id)) n hmem
      (by simp) huniq (fun y _ hq => ?_)
    refine List.countP_eq_zero.mpr (fun i hi hp => ?_)
    have hc := (nodeIssue_char _ inp.registry y i hi).2.2 (hp1 i hp)
    have ht := hp2 i hp
    rw [hc.2] at ht
    have : y.id = n.id := by simpa [nodeTarget] using ht
    simp [this] at hq
  have hnest : (inp.nodes.flatMap (nestingIssue (inp.registry.status = "ready")
      inp.registry (nodeMapOf inp.nodes))).countP p = 0 := by
    refine countP_flatMap_zero _ _ _ (fun y _ => ?_)
    refine List.countP_eq_zero.mpr (fun i hi hp => ?_)
    have hc := (nestingIssue_char _ inp.registry _ y i hi).1
    have hcode := hp1 i hp
    have hd : ∀ c ∈ nestingCodes, c ∉ versionMismatchCodes := by decide
    exact absurd hcode (hd i.code hc)
  have hmid : (match inp.diagramTypeId with
      | some d =>
        if d ≠ "" ∧ isKnownDiagramType d then
          inp.nodes.flatMap (structuralIssue (nodeMapOf inp.nodes) d) ++
          inp.nodes.flatMap (cardinalityIssue inp.nodes) ++
          (if d = "technology-architecture" then techLayerIssues inp.nodes else [])
        else []
      | none => ([] : List Issue)).countP p = 0 := by
    have hmidSome : ∀ d : String,
        (if d ≠ "" ∧ isKnownDiagramType d then
          inp.nodes.flatMap (structuralIssue (nodeMapOf inp.nodes) d) ++
          inp.nodes.flatMap (cardinalityIssue inp.nodes) ++
          (if d = "technology-architecture" then techLayerIssues inp.nodes else [])
        else []).countP p = 0 := by
      intro d
      split
      · simp only [List.countP_append]
        have h1 : (inp.nodes.flatMap (structuralIssue (nodeMapOf inp.nodes) d)).countP p = 0 := by
          refine countP_flatMap_zero _ _ _ (fun y _ => ?_)
          refine List.countP_eq_zero.mpr (fun i hi hp => ?_)
          have hc := (structuralIssue_char _ d y i hi).1
          have hd : ∀ c ∈ structuralCodes, c ∉ versionMismatchCodes := by decide
          exact absurd (hp1 i hp) (hd i.code hc)
        have h2 : (inp.nodes.flatMap (cardinalityIssue inp.nodes)).countP p = 0 := by
          refine countP_flatMap_zero _ _ _ (fun y _ => ?_)
          refine List.countP_eq_zero.mpr (fun i hi hp => ?_)
          have hc := (cardinalityIssue_char inp.nodes y i hi).2
          have hd : ∀ c ∈ cardinalityCodes, c ∉ versionMismatchCodes := by decide
          exact absurd (hp1 i hp) (hd i.code hc)
        have h3 : (if d = "technology-architecture" then techLayerIssues inp.nodes
            else []).countP p = 0 := by
          split
          · refine List.countP_eq_zero.mpr (fun i hi hp => ?_)
            have hc := techLayerIssues_char inp.nodes i hi
            have hd : ∀ c ∈ techCodes, c ∉ versionMismatchCodes := by decide
            exact absurd (hp1 i hp) (hd i.code hc)
          · rfl
        omega
      · rfl
    cases hO : inp.diagramTypeId with
    | none => rfl
    | some d => exact hmidSome d
  have hedge : (inp.edges.flatMap (edgeIssue inp.registry (inp.registry.status = "ready")
      (nodeMapOf inp.nodes) inp.nodes inp.diagramTypeId)).countP p = 0 := by
    refine countP_flatMap_zero _ _ _ (fun y _ => ?_)
    refine List.countP_eq_zero.mpr (fun i hi hp => ?_)
    have hchar := edgeIssue_char inp.registry _ _ inp.nodes inp.diagramTypeId y i hi
    have hcode := hp1 i hp
    have hEdgeCode : i.code = "EDGE_TYPE_VERSION_MISMATCH" := by
      have hcode' : i.code = "COMPONENT_TYPE_VERSION_MISMATCH" ∨
          i.code = "GROUP_TYPE_VERSION_MISMATCH" ∨
          i.code = "EDGE_TYPE_VERSION_MISMATCH" := by
        simpa [versionMismatchCodes] using hcode
      rcases hcode' with hc | hc | hc
      · rw [hc] at hchar; exact absurd hchar.1 (by decide)
      · rw [hc] at hchar; exact absurd hchar.1 (by decide)
      · exact hc
    have ht := hp2 i hp
    rw [(hchar.2.2.1 hEdgeCode).2] at ht
    simp [edgeTarget, nodeTarget] at ht
  have hprog : (if inp.diagramTypeId = some "programme-portfolio" then
      inp.nodes.flatMap (programmeIssue inp.edges) else []).countP p = 0 := by
    split
    · refine countP_flatMap_zero _ _ _ (fun y _ => ?_)
      refine List.countP_eq_zero.mpr (fun i hi hp => ?_)
      have hc := (programmeIssue_char inp.edges y i hi).1
      have hcode := hp1 i hp
      rw [hc] at hcode
      exact absurd hcode (by decide)
    · rfl
  have htrace : (if inp.diagramTypeId = some "cross-domain-traceability" then
      inp.nodes.flatMap (traceabilityIssue inp.edges) else []).countP p = 0 := by
    split
    · refine countP_flatMap_zero _ _ _ (fun y _ => ?_)
      refine List.countP_eq_zero.mpr (fun i hi hp => ?_)
      have hc := (traceabilityIssue_char inp.edges y i hi).1
      have hcode := hp1 i hp
      rw [hc] at hcode
      exact absurd hcode (by decide)
    · rfl
  rw [hreg, hdtc, hnode, hnest, hmid, hedge, hprog, htrace]
  omega

/-- Version-mismatch issues aimed (as edge issues) at the unique edge `e`
can only come from `e`'s own iteration of the edge loop. -/
theorem countP_validate_edgeMismatch (inp : VInput) (e : Edge) (p : Issue → Bool)
    (hp1 : ∀ i, p i = true → i.code ∈ versionMismatchCodes)
    (hp2 : ∀ i, p i = true → i.target = edgeTarget e.id)
    (hmem : e ∈ inp.edges)
    (huniq : inp.edges.countP (fun y => decide (y.id = e.id)) = 1) :
    (validateDiagram inp).countP p =
      (edgeIssue inp.registry (inp.registry.status = "ready") (nodeMapOf inp.nodes)
        inp.nodes inp.diagramTypeId e).countP p := by
  have hp1' : ∀ i, p i = true → i.code = "EDGE_TYPE_VERSION_MISMATCH" ∨
      i.code = "COMPONENT_TYPE_VERSION_MISMATCH" ∨
      i.code = "GROUP_TYPE_VERSION_MISMATCH" := by
    intro i hp
    have hcode' : i.code = "COMPONENT_TYPE_VERSION_MISMATCH" ∨
        i.code = "GROUP_TYPE_VERSION_MISMATCH" ∨
        i.code = "EDGE_TYPE_VERSION_MISMATCH" := by
      simpa [versionMismatchCodes] using hp1 i hp
    tauto
  rw [countP_validateDiagram]
  unfold rawIssues
  simp only [List.countP_append]
  have hreg : (registryIssues inp.registry).countP p = 0 := by
    refine List.countP_eq_zero.mpr (fun i hi hp => ?_)
    have hc := (registryIssues_char inp.registry i hi).1
    have := hp1 i hp
    rw [hc] at this
    exact absurd this (by decide)
  have hdtc : (diagramTypeIssues inp.diagramTypeId).countP p = 0 := by
    refine List.countP_eq_zero.mpr (fun i hi hp => ?_)
    have hc := (diagramTypeIssues_char inp.diagramTypeId i hi).1
    have hcode := hp1 i hp
    rcases hc with hc | hc <;> rw [hc] at hcode <;> exact absurd hcode (by decide)
  have hnode : (inp.nodes.flatMap (nodeIssue (inp.registry.status = "ready")
      inp.registry)).countP p = 0 := by
    refine countP_flatMap_zero _ _ _ (fun y _ => ?_)
    refine List.countP_eq_zero.mpr (fun i hi hp => ?_)
    have hc := (nodeIssue_char _ inp.registry y i hi).2.2 (hp1 i hp)
    have ht := hp2 i hp
    rw [hc.2] at ht
    simp [edgeTarget, nodeTarget] at ht
  have hnest : (inp.nodes.flatMap (nestingIssue (inp.registry.status = "ready")
      inp.registry (nodeMapOf inp.nodes))).countP p = 0 := by
    refine countP_flatMap_zero _ _ _ (fun y _ => ?_)
    refine List.countP_eq_zero.mpr (fun i hi hp => ?_)
    have hc := (nestingIssue_char _ inp.registry _ y i hi).1
    have hd : ∀ c ∈ nestingCodes, c ∉ versionMismatchCodes := by decide
    exact absurd (hp1 i hp) (hd i.code hc)
  have hmid : (match inp.diagramTypeId with
      | some d =>
        if d ≠ "" ∧ isKnownDiagramType d then
          inp.nodes.flatMap (structuralIssue (nodeMapOf inp.nodes) d) ++
          inp.nodes.flatMap (cardinalityIssue inp.nodes) ++
          (if d = "technology-architecture" then techLayerIssues inp.nodes else [])
        else []
      | none => ([] : List Issue)).countP p = 0 := by
    have hmidSome : ∀ d : String,
        (if d ≠ "" ∧ isKnownDiagramType d then
          inp.nodes.flatMap (structuralIssue (nodeMapOf inp.nodes) d) ++
          inp.nodes.flatMap (cardinalityIssue inp.nodes) ++
          (if d = "technology-architecture" then techLayerIssues inp.nodes else [])
        else []).countP p = 0 := by
      intro d
      split
      · simp only [List.countP_append]
        have h1 : (inp.nodes.flatMap (structuralIssue (nodeMapOf inp.nodes) d)).countP p = 0 := by
          refine countP_flatMap_zero _ _ _ (fun y _ => ?_)
          refine List.countP_eq_zero.mpr (fun i hi hp => ?_)
          have hc := (structuralIssue_char _ d y i hi).1
          have hd : ∀ c ∈ structuralCodes, c ∉ versionMismatchCodes := by decide
          exact absurd (hp1 i hp) (hd i.code hc)
        have h2 : (inp.nodes.flatMap (cardinalityIssue inp.nodes)).countP p = 0 := by
          refine countP_flatMap_zero _ _ _ (fun y _ => ?_)
          refine List.countP_eq_zero.mpr (fun i hi hp => ?_)
          have hc := (cardinalityIssue_char inp.nodes y i hi).2
          have hd : ∀ c ∈ cardinalityCodes, c ∉ versionMismatchCodes := by decide
          exact absurd (hp1 i hp) (hd i.code hc)
        have h3 : (if d = "technology-architecture" then techLayerIssues inp.nodes
            else []).countP p = 0 := by
          split
          · refine List.countP_eq_zero.mpr (fun i hi hp => ?_)
            have hc := techLayerIssues_char inp.nodes i hi
            have hd : ∀ c ∈ techCodes, c ∉ versionMismatchCodes := by decide
            exact absurd (hp1 i hp) (hd i.code hc)
          · rfl
        omega
      · rfl
    cases hO : inp.diagramTypeId with
    | none => rfl
    | some d => exact hmidSome d
  have hedge : (inp.edges.flatMap (edgeIssue inp.registry (inp.registry.status = "ready")
      (nodeMapOf inp.nodes) inp.nodes inp.diagramTypeId)).countP p =
      (edgeIssue inp.registry (inp.registry.status = "ready") (nodeMapOf inp.nodes)
        inp.nodes inp.diagramTypeId e).countP p := by
    refine countP_flatMap_single inp.edges _ p (fun y => decide (y.id = e.id)) e hmem
      (by simp) huniq (fun y _ hq => ?_)
    refine List.countP_eq_zero.mpr (fun i hi hp => ?_)
    have hchar := edgeIssue_char inp.registry _ _ inp.nodes inp.diagramTypeId y i hi
    have hEdgeCode : i.code = "EDGE_TYPE_VERSION_MISMATCH" := by
      rcases hp1' i hp with hc | hc | hc
      · exact hc
      · rw [hc] at hchar; exact absurd hchar.1 (by decide)
      · rw [hc] at hchar; exact absurd hchar.1 (by decide)
    have ht := hp2 i hp
    rw [(hchar.2.2.1 hEdgeCode).2] at ht
    have : y.id = e.id := by simpa [edgeTarget] using ht
    simp [this] at hq
  have hprog : (if inp.diagramTypeId = some "programme-portfolio" then
      inp.nodes.flatMap (programmeIssue inp.edges) else []).countP p = 0 := by
    split
    · refine countP_flatMap_zero _ _ _ (fun y _ => ?_)
      refine List.countP_eq_zero.mpr (fun i hi hp => ?_)
      have hc := (programmeIssue_char inp.edges y i hi).1
      have hcode := hp1 i hp
      rw [hc] at hcode
      exact absurd hcode (by decide)
    · rfl
  have htrace : (if inp.diagramTypeId = some "cross-domain-traceability" then
      inp.nodes.flatMap (traceabilityIssue inp.edges) else []).countP p = 0 := by
    split
    · refine countP_flatMap_zero _ _ _ (fun y _ => ?_)
      refine List.countP_eq_zero.mpr (fun i hi hp => ?_)
      have hc := (traceabilityIssue_char inp.edges y i hi).1
      have hcode := hp1 i hp
      rw [hc] at hcode
      exact absurd hcode (by decide)
    · rfl
  rw [hreg, hdtc, hnode, hnest, hmid, hedge, hprog, htrace]
  omega

theorem edgeGuidedTail_codes (nodeById : List (String × Node)) (nodes : List Node)
    (dt : Option String) (g : String) (e : Edge) (target : Node) :
    ∀ i ∈ edgeGuidedTail nodeById nodes dt g e target,
      i.code = "GUIDED_EDGE_INVALID" ∨ i.code = "TECH_EDGE_TARGET_NOT_IN_LANE" := by
  intro i hi
  simp only [edgeGuidedTail] at hi
  repeat' first
    | (exact absurd hi (List.not_mem_nil i))
    | (replace hi := mem_ite_sub hi)
    | (rw [List.mem_append] at hi)
    | (rw [List.mem_singleton] at hi; subst hi)
    | (rcases hi with hi | hi)
    | (split at hi)
  all_goals simp [err]

theorem edgeLegacyTail_codes (registry : Registry) (g : String) (e : Edge)
    (source target : Node) :
    ∀ i ∈ edgeLegacyTail registry g e source target,
      i.code = "EDGE_ENDPOINT_NOT_COMPONENT" ∨ i.code = "EDGE_TYPE_NOT_ALLOWED" ∨
        i.code = "EDGE_ENDPOINTS_INCOMPATIBLE" := by
  intro i hi
  simp only [edgeLegacyTail] at hi
  repeat' first
    | (exact absurd hi (List.not_mem_nil i))
    | (replace hi := mem_ite_sub hi)
    | (rw [List.mem_append] at hi)
    | (rw [List.mem_singleton] at hi; subst hi)
    | (rcases hi with hi | hi)
    | (split at hi)
  all_goals simp [err]

/-- With a finite pinned version disagreeing with the registry's finite
version, the node loop flags the component with exactly one mismatch
WARNING and no mismatch issue of any other severity. -/
theorem nodeIssue_component_mismatch_eval (reg : Registry) (n : Node) (cid : String)
    (ct : ComponentType) (a b : Int)
    (hid : n.id ≠ "") (htype : n.type = some "component")
    (hkind : n.data.kind = some "component")
    (hcid : n.data.componentTypeId = some cid) (hcne : cid ≠ "")
    (hct : jsGet reg.componentTypesById cid = some ct)
    (hiv : n.data.componentTypeVersion = some (.fin a))
    (hrv : ct.version = some (.fin b)) (hab : a ≠ b) :
    (nodeIssue true reg n).countP (isMismatchWarningForNode n.id) = 1 ∧
    (nodeIssue true reg n).countP (isMismatchNonWarningForNode n.id) = 0 := by
  by_cases hok : compileAttributeValidate ct.requiredAttributes (n.data.attributes.getD [])
  all_goals constructor
  all_goals
    simp [nodeIssue, componentNodeIssues, hid, htype, hkind, hcid, hcne, hct, hiv,
      hrv, hab, hok, isGroupNode, isFiniteNumber, isMismatchWarningForNode,
      isMismatchNonWarningForNode, versionMismatchCodes, warn, err, nodeTarget,
      List.countP_cons]

/-- The group analogue of the component mismatch evaluation. -/
theorem nodeIssue_group_mismatch_eval (reg : Registry) (n : Node) (gid : String)
    (gt : GroupType) (a b : Int)
    (hid : n.id ≠ "") (hgroup : isGroupNode n)
    (hgid : n.data.groupTypeId = some gid) (hgne : gid ≠ "")
    (hgt : jsGet reg.groupTypesById gid = some gt)
    (hiv : n.data.groupTypeVersion = some (.fin a))
    (hrv : gt.version = some (.fin b)) (hab : a ≠ b) :
    (nodeIssue true reg n).countP (isMismatchWarningForNode n.id) = 1 ∧
    (nodeIssue true reg n).countP (isMismatchNonWarningForNode n.id) = 0 := by
  constructor
  all_goals
    simp [nodeIssue, groupNodeIssues, hid, hgroup, hgid, hgne, hgt, hiv,
      hrv, hab, isFiniteNumber, isMismatchWarningForNode,
      isMismatchNonWarningForNode, versionMismatchCodes, warn, err, nodeTarget,
      truthy, List.countP_cons]

/-- Reduction of the edge loop to the version chain plus its tail, for an
edge that passes the per-edge gates. -/
theorem edgeIssue_gates_eval (registry : Registry) (nodeById : List (String × Node))
    (nodes : List Node) (dt : Option String) (e : Edge) (s t : Node) (g : String)
    (et : EdgeType)
    (hid : e.id ≠ "")
    (hs : jsGet nodeById e.source = some s)
    (ht : jsGet nodeById e.target = some t)
    (hsok : (s.type = some "component" ∧ s.data.kind = some "component") ∨
      ((s.type = some "group" ∨ s.data.kind = some "group") ∧ truthy s.data.groupTypeId))
    (htok : (t.type = some "component" ∧ t.data.kind = some "component") ∨
      ((t.type = some "group" ∨ t.data.kind = some "group") ∧ truthy t.data.groupTypeId))
    (hg : e.data.edgeTypeId = some g) (hgne : g ≠ "")
    (hreg : jsGet registry.edgeTypesById g = some et) :
    edgeIssue registry true nodeById nodes dt e =
      edgeVersionIssues g et e ++
      (if guidedEdgeTypeIds.contains g then edgeGuidedTail nodeById nodes dt g e t
       else edgeLegacyTail registry g e s t) := by
  have hsok' : ¬ (¬ (s.type = some "component" ∧ s.data.kind = some "component") ∧
      ¬ ((s.type = some "group" ∨ s.data.kind = some "group") ∧
        truthy s.data.groupTypeId)) := by
    rcases hsok with h | h
    · exact fun hc => hc.1 h
    · exact fun hc => hc.2 h
  have htok' : ¬ (¬ (t.type = some "component" ∧ t.data.kind = some "component") ∧
      ¬ ((t.type = some "group" ∨ t.data.kind = some "group") ∧
        truthy t.data.groupTypeId)) := by
    rcases htok with h | h
    · exact fun hc => hc.1 h
    · exact fun hc => hc.2 h
  unfold edgeIssue
  rw [if_neg hid, hs, ht]
  simp only [hg]
  rw [if_neg hsok', if_neg htok', if_neg hgne]
  simp only [if_true, hreg]

/-- With a finite pinned version disagreeing with the registry's, the
edge loop flags the edge with exactly one mismatch WARNING and no
mismatch issue of another severity. -/
theorem edgeIssue_mismatch_eval (registry : Registry) (nodeById : List (String × Node))
    (nodes : List Node) (dt : Option String) (e : Edge) (s t : Node) (g : String)
    (et : EdgeType) (a b : Int)
    (hid : e.id ≠ "")
    (hs : jsGet nodeById e.source = some s)
    (ht : jsGet nodeById e.target = some t)
    (hsok : (s.type = some "component" ∧ s.data.kind = some "component") ∨
      ((s.type = some "group" ∨ s.data.kind = some "group") ∧ truthy s.data.groupTypeId))
    (htok : (t.type = some "component" ∧ t.data.kind = some "component") ∨
      ((t.type = some "group" ∨ t.data.kind = some "group") ∧ truthy t.data.groupTypeId))
    (hg : e.data.edgeTypeId = some g) (hgne : g ≠ "")
    (hreg : jsGet registry.edgeTypesById g = some et)
    (hiv : e.data.edgeTypeVersion = some (.fin a))
    (hrv : et.version = some (.fin b)) (hab : a ≠ b) :
    (edgeIssue registry true nodeById nodes dt e).countP (isMismatchWarningForEdge e.id) = 1 ∧
    (edgeIssue registry true nodeById nodes dt e).countP (isMismatchNonWarningForEdge e.id) = 0 := by
  rw [edgeIssue_gates_eval registry nodeById nodes dt e s t g et hid hs ht hsok htok
    hg hgne hreg]
  have hver : edgeVersionIssues g et e =
      [warn "EDGE_TYPE_VERSION_MISMATCH"
        (let ivs := jnumStr (JNum.fin a)
         let rvs := ((some (JNum.fin b)).map jnumStr).getD "undefined"
         s!"Edge type version mismatch for {g}: instance v{ivs} is locked; registry is v{rvs}.")
        (edgeTarget e.id)] := by
    simp [edgeVersionIssues, hiv, hrv, hab, isFiniteNumber]
  have htailW : (if guidedEdgeTypeIds.contains g then edgeGuidedTail nodeById nodes dt g e t
      else edgeLegacyTail registry g e s t).countP (isMismatchWarningForEdge e.id) = 0 := by
    split
    · refine List.countP_eq_zero.mpr (fun i hi hp => ?_)
      simp [isMismatchWarningForEdge, versionMismatchCodes] at hp
      rcases edgeGuidedTail_codes nodeById nodes dt g e t i hi with hc | hc <;>
        simp [hc] at hp
    · refine List.countP_eq_zero.mpr (fun i hi hp => ?_)
      simp [isMismatchWarningForEdge, versionMismatchCodes] at hp
      rcases edgeLegacyTail_codes registry g e s t i hi with hc | hc | hc <;>
        simp [hc] at hp
  have htailN : (if guidedEdgeTypeIds.contains g then edgeGuidedTail nodeById nodes dt g e t
      else edgeLegacyTail registry g e s t).countP (isMismatchNonWarningForEdge e.id) = 0 := by
    split
    · refine List.countP_eq_zero.mpr (fun i hi hp => ?_)
      simp [isMismatchNonWarningForEdge, versionMismatchCodes] at hp
      rcases edgeGuidedTail_codes nodeById nodes dt g e t i hi with hc | hc <;>
        simp [hc] at hp
    · refine List.countP_eq_zero.mpr (fun i hi hp => ?_)
      simp [isMismatchNonWarningForEdge, versionMismatchCodes] at hp
      rcases edgeLegacyTail_codes registry g e s t i hi with hc | hc | hc <;>
        simp [hc] at hp
  constructor
  · rw [List.countP_append, hver, htailW]
    simp [isMismatchWarningForEdge, versionMismatchCodes, warn, edgeTarget]
  · rw [List.countP_append, hver, htailN]
    simp [isMismatchNonWarningForEdge, versionMismatchCodes, warn, edgeTarget]

/-- Every version-mismatch-coded issue the validator ever emits is a
WARNING. -/
theorem mismatch_always_warning (inp : VInput) :
    ∀ i ∈ validateDiagram inp, i.code ∈ versionMismatchCodes →
      i.severity = "WARNING" := by
  intro i hi hc
  rw [mem_validateDiagram_iff] at hi
  unfold rawIssues at hi
  simp only [List.mem_append] at hi
  rcases hi with ((((((hi | hi) | hi) | hi) | hi) | hi) | hi) | hi
  · have h := (registryIssues_char inp.registry i hi).1
    rw [h] at hc
    exact absurd hc (by decide)
  · have h := (diagramTypeIssues_char inp.diagramTypeId i hi).1
    rcases h with h | h <;> rw [h] at hc <;> exact absurd hc (by decide)
  · rw [List.mem_flatMap] at hi
    obtain ⟨y, -, hi⟩ := hi
    exact ((nodeIssue_char _ inp.registry y i hi).2.2 hc).1
  · rw [List.mem_flatMap] at hi
    obtain ⟨y, -, hi⟩ := hi
    have h := (nestingIssue_char _ inp.registry _ y i hi).1
    have hd : ∀ c ∈ nestingCodes, c ∉ versionMismatchCodes := by decide
    exact absurd hc (hd i.code h)
  · have hmidSome : ∀ d : String,
        i ∈ (if d ≠ "" ∧ isKnownDiagramType d then
          inp.nodes.flatMap (structuralIssue (nodeMapOf inp.nodes) d) ++
          inp.nodes.flatMap (cardinalityIssue inp.nodes) ++
          (if d = "technology-architecture" then techLayerIssues inp.nodes else [])
        else []) → i.severity = "WARNING" := by
      intro d hmem
      rcases mem_ite_sub hmem with hmem | hmem
      · rw [List.mem_append, List.mem_append] at hmem
        rcases hmem with (hmem | hmem) | hmem
        · rw [List.mem_flatMap] at hmem
          obtain ⟨y, -, hmem⟩ := hmem
          have h := (structuralIssue_char _ d y i hmem).1
          have hd : ∀ c ∈ structuralCodes, c ∉ versionMismatchCodes := by decide
          exact absurd hc (hd i.code h)
        · rw [List.mem_flatMap] at hmem
          obtain ⟨y, -, hmem⟩ := hmem
          have h := (cardinalityIssue_char inp.nodes y i hmem).2
          have hd : ∀ c ∈ cardinalityCodes, c ∉ versionMismatchCodes := by decide
          exact absurd hc (hd i.code h)
        · rcases mem_ite_sub hmem with hmem | hmem
          · have h := techLayerIssues_char inp.nodes i hmem
            have hd : ∀ c ∈ techCodes, c ∉ versionMismatchCodes := by decide
            exact absurd hc (hd i.code h)
          · exact absurd hmem (List.not_mem_nil i)
      · exact absurd hmem (List.not_mem_nil i)
    rcases hO : inp.diagramTypeId with _ | d
    · rw [hO] at hi
      exact absurd hi (List.not_mem_nil i)
    · rw [hO] at hi
      exact hmidSome d hi
  · rw [List.mem_flatMap] at hi
    obtain ⟨y, -, hi⟩ := hi
    have hchar := edgeIssue_char inp.registry _ _ inp.nodes inp.diagramTypeId y i hi
    have hcode' : i.code = "COMPONENT_TYPE_VERSION_MISMATCH" ∨
        i.code = "GROUP_TYPE_VERSION_MISMATCH" ∨
        i.code = "EDGE_TYPE_VERSION_MISMATCH" := by
      simpa [versionMismatchCodes] using hc
    rcases hcode' with h | h | h
    · rw [h] at hchar; exact absurd hchar.1 (by decide)
    · rw [h] at hchar; exact absurd hchar.1 (by decide)
    · exact (hchar.2.2.1 h).1
  · rcases mem_ite_sub hi with hi | hi
    · rw [List.mem_flatMap] at hi
      obtain ⟨y, -, hi⟩ := hi
      exact (programmeIssue_char inp.edges y i hi).2.2
    · exact absurd hi (List.not_mem_nil i)
  · rcases mem_ite_sub hi with hi | hi
    · rw [List.mem_flatMap] at hi
      obtain ⟨y, -, hi⟩ := hi
      exact (traceabilityIssue_char inp.edges y i hi).2.2
    · exact absurd hi (List.not_mem_nil i)

/-- `normalizeNode` never touches a typed component's pinned version. -/
theorem normalizeNode_preserves_componentTypeVersion (now : String) (reg : Registry)
    (m : Node) (h : m.type = some "component" ∧ m.data.kind = some "component" ∧
      truthy m.data.componentTypeId) :
    (normalizeNode now reg m).data.componentTypeVersion = m.data.componentTypeVersion := by
  unfold normalizeNode
  split
  · rfl
  · rw [if_pos h]

/-- `normalizeNode` never touches a typed group's pinned version. -/
theorem normalizeNode_preserves_groupTypeVersion (now : String) (reg : Registry)
    (m : Node) (h : m.type = some "group" ∧ m.data.kind = some "group" ∧
      truthy m.data.groupTypeId) :
    (normalizeNode now reg m).data.groupTypeVersion = m.data.groupTypeVersion := by
  unfold normalizeNode
  split
  · rfl
  · rw [if_neg (by rintro ⟨h1, -⟩; rw [h.1] at h1; exact absurd h1 (by decide)), if_pos h]

/-- `normalizeEdge` never touches the pinned edge-type version. -/
theorem normalizeEdge_preserves_edgeTypeVersion (now : String) (e : Edge) :
    (normalizeEdge now e).data.edgeTypeVersion = e.data.edgeTypeVersion := rfl

/-- **C6.** A node (component- or group-typed) and an edge whose pinned
type versions are finite numbers differing from the registry's finite
versions each draw exactly one version-mismatch WARNING targeting them
and no mismatch issue of any other severity; every mismatch-coded issue
the validator emits is a WARNING; and the normalizing mutators preserve
pinned `componentTypeVersion` / `groupTypeVersion` / `edgeTypeVersion`
rather than silently advancing them to the registry's version. -/
theorem C6_version_pin_mismatch_warning (inp : VInput) (n : Node) (e : Edge)
    (hready : inp.registry.status = "ready")
    (hnid : n.id ≠ "") (hnmem : n ∈ inp.nodes)
    (hnuniq : inp.nodes.countP (fun y => decide (y.id = n.id)) = 1)
    (hnode :
      (∃ cid ct a b, n.type = some "component" ∧ n.data.kind = some "component" ∧
        n.data.componentTypeId = some cid ∧ cid ≠ "" ∧
        jsGet inp.registry.componentTypesById cid = some ct ∧
        n.data.componentTypeVersion = some (.fin a) ∧
        ct.version = some (.fin b) ∧ a ≠ b) ∨
      (∃ gid gt a b, isGroupNode n ∧ n.data.groupTypeId = some gid ∧ gid ≠ "" ∧
        jsGet inp.registry.groupTypesById gid = some gt ∧
        n.data.groupTypeVersion = some (.fin a) ∧
        gt.version = some (.fin b) ∧ a ≠ b))
    (heid : e.id ≠ "") (hemem : e ∈ inp.edges)
    (heuniq : inp.edges.countP (fun y => decide (y.id = e.id)) = 1)
    (hedge : ∃ s t g et a b,
      jsGet (nodeMapOf inp.nodes) e.source = some s ∧
      jsGet (nodeMapOf inp.nodes) e.target = some t ∧
      ((s.type = some "component" ∧ s.data.kind = some "component") ∨
        ((s.type = some "group" ∨ s.data.kind = some "group") ∧
          truthy s.data.groupTypeId)) ∧
      ((t.type = some "component" ∧ t.data.kind = some "component") ∨
        ((t.type = some "group" ∨ t.data.kind = some "group") ∧
          truthy t.data.groupTypeId)) ∧
      e.data.edgeTypeId = some g ∧ g ≠ "" ∧
      jsGet inp.registry.edgeTypesById g = some et ∧
      e.data.edgeTypeVersion = some (.fin a) ∧
      et.version = some (.fin b) ∧ a ≠ b) :
    (validateDiagram inp).countP (isMismatchWarningForNode n.id) = 1 ∧
    (validateDiagram inp).countP (isMismatchNonWarningForNode n.id) = 0 ∧
    (validateDiagram inp).countP (isMismatchWarningForEdge e.id) = 1 ∧
    (validateDiagram inp).countP (isMismatchNonWarningForEdge e.id) = 0 ∧
    (∀ i ∈ validateDiagram inp, i.code ∈ versionMismatchCodes →
      i.severity = "WARNING") ∧
    (∀ now m, m.type = some "component" ∧ m.data.kind = some "component" ∧
        truthy m.data.componentTypeId →
      (normalizeNode now inp.registry m).data.componentTypeVersion =
        m.data.componentTypeVersion) ∧
    (∀ now m, m.type = some "group" ∧ m.data.kind = some "group" ∧
        truthy m.data.groupTypeId →
      (normalizeNode now inp.registry m).data.groupTypeVersion =
        m.data.groupTypeVersion) ∧
    (∀ now e2, (normalizeEdge now e2).data.edgeTypeVersion =
      e2.data.edgeTypeVersion) := by
  have hb : decide (inp.registry.status = "ready") = true := decide_eq_true hready
  obtain ⟨s, t, g, et, a, b, hs, ht, hsok, htok, hg, hgne, hreg, hiv, hrv, hab⟩ := hedge
  have hnodeEval : (nodeIssue true inp.registry n).countP
        (isMismatchWarningForNode n.id) = 1 ∧
      (nodeIssue true inp.registry n).countP (isMismatchNonWarningForNode n.id) = 0 := by
    rcases hnode with ⟨cid, ct, a', b', h1, h2, h3, h4, h5, h6, h7, h8⟩ |
      ⟨gid, gt, a', b', h1, h2, h3, h4, h5, h6, h7⟩
    · exact nodeIssue_component_mismatch_eval inp.registry n cid ct a' b'
        hnid h1 h2 h3 h4 h5 h6 h7 h8
    · exact nodeIssue_group_mismatch_eval inp.registry n gid gt a' b'
        hnid h1 h2 h3 h4 h5 h6 h7
  have hedgeEval := edgeIssue_mismatch_eval inp.registry (nodeMapOf inp.nodes)
    inp.nodes inp.diagramTypeId e s t g et a b heid hs ht hsok htok hg hgne hreg
    hiv hrv hab
  have hcWn := countP_validate_nodeMismatch inp n (isMismatchWarningForNode n.id)
    (fun i hp => by
      simp only [isMismatchWarningForNode, decide_eq_true_eq] at hp
      exact hp.1)
    (fun i hp => by
      simp only [isMismatchWarningForNode, decide_eq_true_eq] at hp
      exact hp.2.2)
    hnmem hnuniq
  have hcNn := countP_validate_nodeMismatch inp n (isMismatchNonWarningForNode n.id)
    (fun i hp => by
      simp only [isMismatchNonWarningForNode, decide_eq_true_eq] at hp
      exact hp.1)
    (fun i hp => by
      simp only [isMismatchNonWarningForNode, decide_eq_true_eq] at hp
      exact hp.2.2)
    hnmem hnuniq
  have hcWe := countP_validate_edgeMismatch inp e (isMismatchWarningForEdge e.id)
    (fun i hp => by
      simp only [isMismatchWarningForEdge, decide_eq_true_eq] at hp
      exact hp.1)
    (fun i hp => by
      simp only [isMismatchWarningForEdge, decide_eq_true_eq] at hp
      exact hp.2.2)
    hemem heuniq
  have hcNe := countP_validate_edgeMismatch inp e (isMismatchNonWarningForEdge e.id)
    (fun i hp => by
      simp only [isMismatchNonWarningForEdge, decide_eq_true_eq] at hp
      exact hp.1)
    (fun i hp => by
      simp only [isMismatchNonWarningForEdge, decide_eq_true_eq] at hp
      exact hp.2.2)
    hemem heuniq
  rw [hb] at hcWn hcNn hcWe hcNe
  refine ⟨?_, ?_, ?_, ?_, mismatch_always_warning inp,
    fun now m h => normalizeNode_preserves_componentTypeVersion now inp.registry m h,
    fun now m h => normalizeNode_preserves_groupTypeVersion now inp.registry m h,
    fun now e2 => normalizeEdge_preserves_edgeTypeVersion now e2⟩
  · rw [hcWn]; exact hnodeEval.1
  · rw [hcNn]; exact hnodeEval.2
  · rw [hcWe]; exact hedgeEval.1
  · rw [hcNe]; exact hedgeEval.2

/-- A component node pinning version 1 while the registry is at version 2. -/
def c6n : Node :=
  { id := "n1", type := some "component",
    data := { kind := some "component", componentTypeId := some "ct",
              componentTypeVersion := some (.fin 1) } }

def c6ct : ComponentType :=
  { typeId := "ct", version := some (.fin 2),
    requiredAttributes := some (fun _ => true) }

def c6et : EdgeType := { edgeTypeId := "rel.x", version := some (.fin 2) }

/-- An edge (looping on the component) pinning edge-type version 1 while
the registry is at version 2. -/
def c6e : Edge :=
  { id := "e1", source := "n1", target := "n1",
    data := { edgeTypeId := some "rel.x", edgeTypeVersion := some (.fin 1) } }

def c6inp : VInput :=
  { registry := { status := "ready", componentTypesById := [("ct", c6ct)],
                  edgeTypesById := [("rel.x", c6et)] },
    nodes := [c6n], edges := [c6e] }

/-! ## Claim C2 — paste hard-fail -/

theorem exists_mem_enum {α : Type} (l : List α) (a : α) (ha : a ∈ l) :
    ∃ i, (i, a) ∈ l.enum := by
  obtain ⟨i, hi, hget⟩ := List.mem_iff_getElem.mp ha
  have hi' : i < l.enum.length := by simpa [List.enum_length] using hi
  refine ⟨i, List.mem_iff_getElem.mpr ⟨i, hi', ?_⟩⟩
  rw [List.getElem_enum l (i := i) (h := hi'), hget]

theorem jsGet_foldl_isSome {α : Type} (l : List (String × α)) (k : String)
    (acc : Option α) (h : (∃ p ∈ l, p.1 = k) ∨ acc.isSome = true) :
    (l.foldl (fun acc p => if p.1 = k then some p.2 else acc) acc).isSome = true := by
  induction l generalizing acc with
  | nil =>
    rcases h with ⟨p, hp, -⟩ | h
    · exact absurd hp (List.not_mem_nil p)
    · exact h
  | cons x xs ih =>
    simp only [List.foldl_cons]
    apply ih
    by_cases hx : x.1 = k
    · right; simp [hx]
    · rcases h with ⟨p, hp, hk⟩ | hacc
      · rcases List.mem_cons.mp hp with rfl | hp'
        · exact absurd hk hx
        · exact Or.inl ⟨p, hp', hk⟩
      · right; simpa [hx] using hacc

/-- A clipboard node with the looked-up id makes the paste's `idMap`
lookup succeed. -/
theorem jsGet_idMap_isSome (freshN : Nat → String) (l : List Node) (k : String)
    (h : ∃ n ∈ l, n.id = k) :
    (jsGet (l.enum.map (fun p => (p.2.id, freshN p.1))) k).isSome = true := by
  obtain ⟨n, hn, hid⟩ := h
  obtain ⟨i, hmem⟩ := exists_mem_enum l n hn
  exact jsGet_foldl_isSome _ k none
    (Or.inl ⟨(n.id, freshN i), List.mem_map.mpr ⟨(i, n), hmem, rfl⟩, hid⟩)

/-- A typed element that is missing its pinned version still misses it
after the paste's clone/normalize step, so the first hard-fail scan
reports it. -/
theorem pasteNodeError_pasteNode_missing (now : String) (registry : Registry)
    (offset : Int × Int) (newId : String) (n : Node)
    (hready : registry.status = "ready")
    (hcond :
      (n.type = some "component" ∧ n.data.kind = some "component" ∧
        truthy n.data.componentTypeId = true ∧ n.data.componentTypeVersion = none) ∨
      (n.type = some "group" ∧ n.data.kind = some "group" ∧
        truthy n.data.groupTypeId = true ∧ n.data.groupTypeVersion = none)) :
    pasteNodeError (pasteNode now registry offset newId n) ≠ none := by
  rcases hcond with ⟨h1, h2, h3, h4⟩ | ⟨h1, h2, h3, h4⟩
  · simp [pasteNode, normalizeNode, pasteNodeError, hready, h1, h2, h3, h4]
  · simp [pasteNode, normalizeNode, pasteNodeError, hready, h1, h2, h3, h4]

/-- An edge with a falsy or unregistered `edgeTypeId` fails the second
hard-fail scan. -/
theorem pasteEdgeError_unknown (r : Registry) (nb : List (String × Node))
    (e : Edge) (g : String) (hid : e.data.edgeTypeId = some g)
    (hbad : g = "" ∨ jsGet r.edgeTypesById g = none) :
    pasteEdgeError r nb e ≠ none := by
  simp only [pasteEdgeError, hid]
  rcases hbad with h | h
  · subst h; simp
  · simp [h]

/-- An edge missing its pinned `edgeTypeVersion` fails the second
hard-fail scan. -/
theorem pasteEdgeError_missing_version (r : Registry) (nb : List (String × Node))
    (e : Edge) (h : e.data.edgeTypeVersion = none) :
    pasteEdgeError r nb e ≠ none := by
  simp only [pasteEdgeError, h]
  split
  · simp
  · split
    · simp
    · next hc => exact absurd trivial hc

theorem foldl_no_key {β : Type} (m : List (String × β)) (k : String)
    (h : ∀ p ∈ m, p.1 ≠ k) (acc : Option β) :
    m.foldl (fun acc p => if p.1 = k then some p.2 else acc) acc = acc := by
  induction m generalizing acc with
  | nil => rfl
  | cons hd tl ih =>
    rw [List.foldl_cons, if_neg (h hd (List.mem_cons_self hd tl))]
    exact ih (fun p hp => h p (List.mem_cons_of_mem hd hp)) acc

/-- Last-wins lookup at the last binding of the key. -/
theorem jsGet_eq_of_decomp {β : Type} (m1 : List (String × β)) (k : String) (v : β)
    (m2 : List (String × β)) (h2 : ∀ p ∈ m2, p.1 ≠ k) :
    jsGet (m1 ++ (k, v) :: m2) k = some v := by
  unfold jsGet
  rw [List.foldl_append, List.foldl_cons, if_pos rfl]
  exact foldl_no_key m2 k h2 (some v)

/-- Lookup in a map built over `enum` when exactly index `i` carries the
key. -/
theorem jsGet_enum_map_eq {α β : Type} (l : List α) (F : Nat → α → String × β)
    (k : String) (i : Nat) (hi : i < l.length) (hk : (F i l[i]).1 = k)
    (hother : ∀ j, (hj : j < l.length) → j ≠ i → (F j l[j]).1 ≠ k) :
    jsGet (l.enum.map (fun p => F p.1 p.2)) k = some (F i l[i]).2 := by
  have hi' : i < l.enum.length := by simpa [List.enum_length] using hi
  have hdec : l.enum = l.enum.take i ++ (i, l[i]) :: l.enum.drop (i + 1) := by
    conv_lhs => rw [← List.take_append_drop i l.enum]
    rw [List.drop_eq_getElem_cons hi', List.getElem_enum]
  have hentry : F i l[i] = (k, (F i l[i]).2) := by
    rw [← hk]
  rw [hdec, List.map_append, List.map_cons]
  show jsGet (_ ++ F i l[i] :: _) k = _
  rw [hentry]
  apply jsGet_eq_of_decomp
  intro p hp
  obtain ⟨q, hq, rfl⟩ := List.mem_map.mp hp
  obtain ⟨idx, hidx, hqe⟩ := List.mem_iff_getElem.mp hq
  have hlen : i + 1 + idx < l.enum.length := by
    rw [List.length_drop, List.enum_length] at hidx
    rw [List.enum_length]
    omega
  have hqe' : q = l.enum[i + 1 + idx] := by
    rw [← hqe, List.getElem_drop]
  have hlt : i + 1 + idx < l.length := by simpa [List.enum_length] using hlen
  have hq2 : q = (i + 1 + idx, l[i + 1 + idx]) := by
    rw [hqe', List.getElem_enum]
  rw [hq2]
  exact hother (i + 1 + idx) hlt (by omega)

theorem countP_two_indices {α : Type} (l : List α) (p : α → Bool) (i j : Nat)
    (hi : i < l.length) (hj : j < l.length) (hij : i < j)
    (hpi : p l[i] = true) (hpj : p l[j] = true) : 2 ≤ l.countP p := by
  have hdec := List.take_append_drop (i + 1) l
  have h1 : 0 < (l.take (i + 1)).countP p := by
    rw [List.countP_pos_iff]
    refine ⟨l[i], ?_, hpi⟩
    rw [List.mem_iff_getElem]
    exact ⟨i, by simp; omega, List.getElem_take ..⟩
  have h2 : 0 < (l.drop (i + 1)).countP p := by
    rw [List.countP_pos_iff]
    refine ⟨l[j], ?_, hpj⟩
    rw [List.mem_iff_getElem]
    refine ⟨j - (i + 1), by simp; omega, ?_⟩
    rw [List.getElem_drop]
    congr 1
    omega
  calc 2 ≤ (l.take (i + 1)).countP p + (l.drop (i + 1)).countP p := by omega
    _ = l.countP p := by rw [← List.countP_append, hdec]

/-- The paste's per-node transform gives the pasted node the fresh id. -/
theorem pasteNode_id (now : String) (registry : Registry) (offset : Int × Int)
    (newId : String) (n : Node) : (pasteNode now registry offset newId n).id = newId := by
  simp only [pasteNode, normalizeNode]
  split
  · rfl
  · split
    · rfl
    · split
      · rfl
      · rfl

/-- A copied node that is a typed component or a typed group — the shapes
`normalizeNode`'s first two branches keep as they are (anything else is
legacy-migrated). -/
def typedClipboardNode (n : Node) : Prop :=
  (n.type = some "component" ∧ n.data.kind = some "component" ∧
    truthy n.data.componentTypeId = true) ∨
  (n.type = some "group" ∧ n.data.kind = some "group" ∧
    truthy n.data.groupTypeId = true)

/-- `registry.componentTypesById.get(node?.data?.componentTypeId)` — the
endpoint-typing lookup of the paste's second hard-fail scan. -/
def endpointComponentType (r : Registry) (n : Node) : Option ComponentType :=
  n.data.componentTypeId.bind (jsGet r.componentTypesById)

theorem pasteNode_preserves_componentTypeId (now : String) (registry : Registry)
    (offset : Int × Int) (newId : String) (n : Node) (h : typedClipboardNode n) :
    (pasteNode now registry offset newId n).data.componentTypeId =
      n.data.componentTypeId := by
  unfold typedClipboardNode at h
  simp only [pasteNode, normalizeNode]
  split
  · rfl
  · rcases h with ⟨h1, h2, h3⟩ | ⟨h1, h2, h3⟩ <;> simp [h1, h2, h3]

/-- End-to-end endpoint resolution of the paste: with distinct fresh ids
and a unique copied node carrying the endpoint id, the `idMap` rewrite
followed by the `newNodeById` lookup lands on that node's pasted clone. -/
theorem paste_endpoint_resolves (now : String) (registry : Registry)
    (offset : Int × Int) (freshN : Nat → String) (hinj : Function.Injective freshN)
    (l : List Node) (k : String) (i : Nat) (hi : i < l.length)
    (hk : l[i].id = k)
    (huniq : l.countP (fun y => decide (y.id = k)) = 1) :
    jsGet (l.enum.map (fun p => (p.2.id, freshN p.1))) k = some (freshN i) ∧
    jsGet (nodeMapOf (l.enum.map (fun p => pasteNode now registry offset (freshN p.1) p.2)))
        (freshN i) =
      some (pasteNode now registry offset (freshN i) l[i]) := by
  have hother : ∀ j, (hj : j < l.length) → j ≠ i → (l[j]).id ≠ k := by
    intro j hj hne hck
    have h2 : 2 ≤ l.countP (fun y => decide (y.id = k)) := by
      rcases Nat.lt_or_ge j i with hlt | hge
      · exact countP_two_indices l _ j i hj hi hlt (by simp [hck]) (by simp [hk])
      · have hlt : i < j := by omega
        exact countP_two_indices l _ i j hi hj hlt (by simp [hk]) (by simp [hck])
    omega
  constructor
  · exact jsGet_enum_map_eq l (fun j n => (n.id, freshN j)) k i hi hk
      (fun j hj hne => hother j hj hne)
  · have hmap : nodeMapOf (l.enum.map (fun p => pasteNode now registry offset (freshN p.1) p.2)) =
        l.enum.map (fun p => ((pasteNode now registry offset (freshN p.1) p.2).id,
          pasteNode now registry offset (freshN p.1) p.2)) := by
      unfold nodeMapOf
      rw [List.map_map]
      rfl
    rw [hmap]
    exact jsGet_enum_map_eq l
      (fun j n => ((pasteNode now registry offset (freshN j) n).id,
        pasteNode now registry offset (freshN j) n)) (freshN i) i hi
      (pasteNode_id now registry offset (freshN i) _)
      (fun j hj hne => by
        show (pasteNode now registry offset (freshN j) (l[j])).id ≠ freshN i
        rw [pasteNode_id]
        exact fun hc => hne (hinj hc))

/-- An edge whose resolved endpoints fail the typing lookup or the
compatibility checks fails the second hard-fail scan. -/
theorem pasteEdgeError_endpoint_fail (r : Registry) (nb : List (String × Node))
    (e : Edge) (sN tN : Node)
    (hs : jsGet nb e.source = some sN) (ht : jsGet nb e.target = some tN)
    (hfail :
      endpointComponentType r sN = none ∨
      endpointComponentType r tN = none ∨
      ∃ sT tT, endpointComponentType r sN = some sT ∧
        endpointComponentType r tN = some tT ∧
        (((sT.allowedChildTypes ≠ [] ∨ tT.allowedParentTypes ≠ []) ∧
          ¬ (sT.allowedChildTypes.contains tT.typeId = true ∧
             tT.allowedParentTypes.contains sT.typeId = true)) ∨
         (computeAllowedEdgeTypeIds r (some sT) (some tT)).contains
             (e.data.edgeTypeId.getD "") = false)) :
    pasteEdgeError r nb e ≠ none := by
  simp only [endpointComponentType] at hfail
  simp only [pasteEdgeError, hs, ht, Option.some_bind]
  split
  · simp
  · split
    · simp
    · split
      · next sourceType targetType heqS heqT =>
        rcases hfail with h | h | ⟨sT, tT, hsT, htT, hbad⟩
        · rw [h] at heqS
          exact absurd heqS (by simp)
        · rw [h] at heqT
          exact absurd heqT (by simp)
        · rw [hsT] at heqS
          rw [htT] at heqT
          obtain rfl : sT = sourceType := by injection heqS
          obtain rfl : tT = targetType := by injection heqT
          rcases hbad with hcp | hallow
          · rw [if_pos hcp]
            simp
          · by_cases hcp : (sT.allowedChildTypes ≠ [] ∨
                tT.allowedParentTypes ≠ []) ∧
                ¬ (sT.allowedChildTypes.contains tT.typeId = true ∧
                   tT.allowedParentTypes.contains sT.typeId = true)
            · rw [if_pos hcp]
              simp
            · rw [if_neg hcp, if_pos (by simpa using hallow)]
              simp
      · simp

/-- **C2 (amended).** If some copied node or group is missing its pinned
type version, or some copied edge **whose two endpoints are both among
the copied nodes** has a falsy/unregistered edge-type id, a missing
pinned edge-type version, an endpoint that does not resolve to a
registered component type, or fails the endpoint/edge-type compatibility
checks against the current registry, then `pasteClipboard` adds zero
nodes, zero edges and leaves the undo history untouched.  The
endpoint-typing and compatibility conditions are stated on typed copied
endpoints (which the paste's normalization provably keeps as they are),
with uniquely-identified endpoint ids and distinct fresh ids — mirroring
the `idMap`/`newNodeById` lookups the scan actually performs.  The
claim's unrestricted edge condition is false: an offending edge with an
endpoint outside the copied selection is silently dropped and the paste
proceeds — see the counterexample. -/
theorem C2_paste_hard_fail (freshN freshE : Nat → String) (now : String)
    (st : StoreState) (anchorPosition : Option (Int × Int)) (cb : Clipboard)
    (hcb : st.clipboard = some cb)
    (hfail :
      (∃ n ∈ cb.nodes,
        (n.type = some "component" ∧ n.data.kind = some "component" ∧
          truthy n.data.componentTypeId = true ∧
          n.data.componentTypeVersion = none) ∨
        (n.type = some "group" ∧ n.data.kind = some "group" ∧
          truthy n.data.groupTypeId = true ∧ n.data.groupTypeVersion = none)) ∨
      (∃ e ∈ cb.edges,
        (∃ sn ∈ cb.nodes, sn.id = e.source) ∧ (∃ tn ∈ cb.nodes, tn.id = e.target) ∧
        ((∃ g, e.data.edgeTypeId = some g ∧
            (g = "" ∨ jsGet st.registry.edgeTypesById g = none)) ∨
         e.data.edgeTypeVersion = none ∨
         (Function.Injective freshN ∧
          cb.nodes.countP (fun y => decide (y.id = e.source)) = 1 ∧
          cb.nodes.countP (fun y => decide (y.id = e.target)) = 1 ∧
          ∃ sn tn, sn ∈ cb.nodes ∧ tn ∈ cb.nodes ∧
            sn.id = e.source ∧ tn.id = e.target ∧
            typedClipboardNode sn ∧ typedClipboardNode tn ∧
            (endpointComponentType st.registry sn = none ∨
             endpointComponentType st.registry tn = none ∨
             ∃ sT tT, endpointComponentType st.registry sn = some sT ∧
               endpointComponentType st.registry tn = some tT ∧
               (((sT.allowedChildTypes ≠ [] ∨ tT.allowedParentTypes ≠ []) ∧
                 ¬ (sT.allowedChildTypes.contains tT.typeId = true ∧
                    tT.allowedParentTypes.contains sT.typeId = true)) ∨
                (computeAllowedEdgeTypeIds st.registry (some sT) (some tT)).contains
                    (e.data.edgeTypeId.getD "rel.dependsOn") = false)))))) :
    (pasteClipboard freshN freshE now st anchorPosition).nodes = st.nodes ∧
    (pasteClipboard freshN freshE now st anchorPosition).edges = st.edges ∧
    (pasteClipboard freshN freshE now st anchorPosition).history = st.history := by
  have hne : ¬ (cb.nodes = [] ∧ cb.edges = []) := by
    rcases hfail with ⟨n, hn, -⟩ | ⟨e, he, -⟩
    · rintro ⟨h1, -⟩; rw [h1] at hn; exact absurd hn (List.not_mem_nil n)
    · rintro ⟨-, h2⟩; rw [h2] at he; exact absurd he (List.not_mem_nil e)
  by_cases hready : st.registry.status = "ready"
  · simp only [pasteClipboard, hcb]
    rw [if_neg hne, if_neg (not_not_intro hready)]
    split
    · exact ⟨rfl, rfl, rfl⟩
    · next hN =>
      split
      · exact ⟨rfl, rfl, rfl⟩
      · next hE =>
        exfalso
        rcases hfail with ⟨n, hn, hcond⟩ |
          ⟨e, he, ⟨sn, hsn, hsnid⟩, ⟨tn, htn, htnid⟩, hbad⟩
        · obtain ⟨i, hmem⟩ := exists_mem_enum cb.nodes n hn
          have h0 := List.findSome?_eq_none_iff.mp hN _
            (List.mem_map.mpr ⟨(i, n), hmem, rfl⟩)
          exact pasteNodeError_pasteNode_missing now st.registry _ _ n hready hcond h0
        · obtain ⟨i, hmem⟩ := exists_mem_enum cb.edges e he
          rcases hbad with ⟨g, hid, hbad'⟩ | hver |
            ⟨hinj, huS, huT, sn', tn', hsn', htn', hsid', htid', htys, htyt, hcd⟩
          · have hsrc := jsGet_idMap_isSome freshN cb.nodes e.source ⟨sn, hsn, hsnid⟩
            have htgt := jsGet_idMap_isSome freshN cb.nodes e.target ⟨tn, htn, htnid⟩
            have h0 := List.findSome?_eq_none_iff.mp hE _
              (List.mem_filterMap.mpr ⟨(i, e), hmem, by rw [if_pos ⟨hsrc, htgt⟩]⟩)
            exact pasteEdgeError_unknown st.registry _ _ g
              (by simp [normalizeEdge, hid]) hbad' h0
          · have hsrc := jsGet_idMap_isSome freshN cb.nodes e.source ⟨sn, hsn, hsnid⟩
            have htgt := jsGet_idMap_isSome freshN cb.nodes e.target ⟨tn, htn, htnid⟩
            have h0 := List.findSome?_eq_none_iff.mp hE _
              (List.mem_filterMap.mpr ⟨(i, e), hmem, by rw [if_pos ⟨hsrc, htgt⟩]⟩)
            exact pasteEdgeError_missing_version st.registry _ _
              (by simp [normalizeEdge, hver]) h0
          · obtain ⟨iS, hiS, hgetS⟩ := List.mem_iff_getElem.mp hsn'
            obtain ⟨iT, hiT, hgetT⟩ := List.mem_iff_getElem.mp htn'
            have hkS : (cb.nodes[iS]).id = e.source := by rw [hgetS]; exact hsid'
            have hkT : (cb.nodes[iT]).id = e.target := by rw [hgetT]; exact htid'
            have hidmS : jsGet (cb.nodes.enum.map (fun p => (p.2.id, freshN p.1)))
                e.source = some (freshN iS) :=
              (paste_endpoint_resolves now st.registry (0, 0) freshN hinj
                cb.nodes e.source iS hiS hkS huS).1
            have hidmT : jsGet (cb.nodes.enum.map (fun p => (p.2.id, freshN p.1)))
                e.target = some (freshN iT) :=
              (paste_endpoint_resolves now st.registry (0, 0) freshN hinj
                cb.nodes e.target iT hiT hkT huT).1
            have h0 := List.findSome?_eq_none_iff.mp hE _
              (List.mem_filterMap.mpr ⟨(i, e), hmem,
                by rw [if_pos ⟨by rw [hidmS]; rfl, by rw [hidmT]; rfl⟩]⟩)
            simp only [hidmS, hidmT, Option.getD_some] at h0
            apply absurd h0
            have htysS : typedClipboardNode (cb.nodes[iS]) := by
              rw [hgetS]; exact htys
            have htysT : typedClipboardNode (cb.nodes[iT]) := by
              rw [hgetT]; exact htyt
            have htrans : ∀ off : Int × Int,
                endpointComponentType st.registry
                    (pasteNode now st.registry off (freshN iS) (cb.nodes[iS])) =
                  endpointComponentType st.registry sn' ∧
                endpointComponentType st.registry
                    (pasteNode now st.registry off (freshN iT) (cb.nodes[iT])) =
                  endpointComponentType st.registry tn' := by
              intro off
              constructor
              · unfold endpointComponentType
                rw [pasteNode_preserves_componentTypeId now st.registry off
                  (freshN iS) _ htysS, hgetS]
              · unfold endpointComponentType
                rw [pasteNode_preserves_componentTypeId now st.registry off
                  (freshN iT) _ htysT, hgetT]
            apply pasteEdgeError_endpoint_fail st.registry _ _
              (pasteNode now st.registry _ (freshN iS) (cb.nodes[iS]))
              (pasteNode now st.registry _ (freshN iT) (cb.nodes[iT]))
            · exact (paste_endpoint_resolves now st.registry _ freshN hinj
                cb.nodes e.source iS hiS hkS huS).2
            · exact (paste_endpoint_resolves now st.registry _ freshN hinj
                cb.nodes e.target iT hiT hkT huT).2
            · rcases hcd with h | h | ⟨sT, tT, h1, h2, h3⟩
              · exact Or.inl (((htrans _).1).trans h)
              · exact Or.inr (Or.inl (((htrans _).2).trans h))
              · exact Or.inr (Or.inr ⟨sT, tT, ((htrans _).1).trans h1,
                  ((htrans _).2).trans h2, h3⟩)
  · simp only [pasteClipboard, hcb]
    rw [if_neg hne, if_pos hready]
    exact ⟨rfl, rfl, rfl⟩

def c2ct : ComponentType :=
  { typeId := "ct", version := some (.fin 1),
    requiredAttributes := some (fun _ => true) }

/-- A well-formed typed component to copy. -/
def c2node : Node :=
  { id := "A", type := some "component",
    data := { kind := some "component", componentTypeId := some "ct",
              componentTypeVersion := some (.fin 1) } }

def c2registry : Registry :=
  { status := "ready", componentTypesById := [("ct", c2ct)],
    edgeTypesById := [("rel.dependsOn",
      { edgeTypeId := "rel.dependsOn", version := some (.fin 1) })] }

/-- A copied self-loop on `A` with an edge type unknown to the registry. -/
def c2wEdge : Edge :=
  { id := "e1", source := "A", target := "A",
    data := { edgeTypeId := some "rel.bogus", edgeTypeVersion := some (.fin 1) } }

def c2wst : StoreState :=
  { registry := c2registry,
    clipboard := some { nodes := [c2node], edges := [c2wEdge] } }

def c2freshN : Nat → String := fun i => s!"node-{i}"

def c2freshE : Nat → String := fun i => s!"edge-{i}"

/-- Component type `a` only accepts `x` children, so an `a → b` edge
fails the child/parent compatibility check. -/
def c2ctA : ComponentType :=
  { typeId := "a", version := some (.fin 1), allowedChildTypes := ["x"],
    requiredAttributes := some (fun _ => true) }

def c2ctB : ComponentType :=
  { typeId := "b", version := some (.fin 1),
    requiredAttributes := some (fun _ => true) }

def c2nA : Node :=
  { id := "A", type := some "component",
    data := { kind := some "component", componentTypeId := some "a",
              componentTypeVersion := some (.fin 1) } }

def c2nB : Node :=
  { id := "B", type := some "component",
    data := { kind := some "component", componentTypeId := some "b",
              componentTypeVersion := some (.fin 1) } }

/-- A well-formed copied edge (known type, pinned version, both endpoints
copied) between incompatible component types. -/
def c2cEdge : Edge :=
  { id := "e1", source := "A", target := "B",
    data := { edgeTypeId := some "rel.x", edgeTypeVersion := some (.fin 1) } }

def c2cRegistry : Registry :=
  { status := "ready", componentTypesById := [("a", c2ctA), ("b", c2ctB)],
    edgeTypesById := [("rel.x", { edgeTypeId := "rel.x", version := some (.fin 1) })] }

def c2cst : StoreState :=
  { registry := c2cRegistry,
    clipboard := some { nodes := [c2nA, c2nB], edges := [c2cEdge] } }

/-- A concrete injective id supply. -/
def c2freshN2 : Nat → String := fun i => String.mk (List.replicate i 'n')

theorem c2freshN2_injective : Function.Injective c2freshN2 := by
  intro a b h
  have h2 := congrArg String.length h
  simpa [c2freshN2] using h2

/-- Witness for C2 at two concrete clipboards: one whose edge (endpoints
both copied) has an unknown edge type, one whose edge fails the
endpoint/edge-type compatibility checks. -/
theorem C2_witness :
    ((pasteClipboard c2freshN c2freshE "T" c2wst none).nodes = c2wst.nodes ∧
     (pasteClipboard c2freshN c2freshE "T" c2wst none).edges = c2wst.edges ∧
     (pasteClipboard c2freshN c2freshE "T" c2wst none).history = c2wst.history) ∧
    ((pasteClipboard c2freshN2 c2freshE "T" c2cst none).nodes = c2cst.nodes ∧
     (pasteClipboard c2freshN2 c2freshE "T" c2cst none).edges = c2cst.edges ∧
     (pasteClipboard c2freshN2 c2freshE "T" c2cst none).history = c2cst.history) :=
  ⟨C2_paste_hard_fail c2freshN c2freshE "T" c2wst none
    { nodes := [c2node], edges := [c2wEdge] } rfl
    (Or.inr ⟨c2wEdge, by decide, ⟨c2node, by decide, rfl⟩, ⟨c2node, by decide, rfl⟩,
      Or.inl ⟨"rel.bogus", rfl, Or.inr rfl⟩⟩),
   C2_paste_hard_fail c2freshN2 c2freshE "T" c2cst none
    { nodes := [c2nA, c2nB], edges := [c2cEdge] } rfl
    (Or.inr ⟨c2cEdge, by decide, ⟨c2nA, by decide, rfl⟩, ⟨c2nB, by decide, rfl⟩,
      Or.inr (Or.inr ⟨c2freshN2_injective, by decide, by decide,
        c2nA, c2nB, by decide, by decide, rfl, rfl,
        Or.inl ⟨rfl, rfl, rfl⟩, Or.inl ⟨rfl, rfl, rfl⟩,
        Or.inr (Or.inr ⟨c2ctA, c2ctB, rfl, rfl,
          Or.inl ⟨Or.inl (by decide), by decide⟩⟩)⟩)⟩)⟩

/-- A copied edge from `A` to a node that is *not* part of the copied
selection, with an unknown edge type. -/
def c2ghostEdge : Edge :=
  { id := "e1", source := "A", target := "ghost",
    data := { edgeTypeId := some "rel.bogus", edgeTypeVersion := some (.fin 1) } }

def c2st : StoreState :=
  { registry := c2registry,
    clipboard := some { nodes := [c2node], edges := [c2ghostEdge] } }

/-- **C2 (counterexample).** The clipboard holds one node and one edge
whose edge type is unknown to the registry, yet — because the edge's
target endpoint is not among the copied nodes — `pasteClipboard` silently
drops the edge, adds the node, pushes an undo snapshot and reports no
modeling error, refuting the claim's "zero new nodes … undo stacks
unchanged". -/
theorem C2_counterexample :
    (∃ e ∈ c2st.clipboard.getD {} |>.edges, e.data.edgeTypeId = some "rel.bogus") ∧
    jsGet c2st.registry.edgeTypesById "rel.bogus" = none ∧
    (pasteClipboard c2freshN c2freshE "T" c2st none).nodes.length =
      c2st.nodes.length + 1 ∧
    (pasteClipboard c2freshN c2freshE "T" c2st none).edges.length = 0 ∧
    (pasteClipboard c2freshN c2freshE "T" c2st none).history.past.length = 1 ∧
    c2st.history.past.length = 0 ∧
    (pasteClipboard c2freshN c2freshE "T" c2st none).lastModelingError = none := by
  refine ⟨⟨c2ghostEdge, by decide, rfl⟩, rfl, ?_, ?_, ?_, rfl, ?_⟩
  · decide
  · decide
  · decide
  · decide

/-- Witness for C6 at a concrete stale component and stale edge. -/
theorem C6_witness :
    (validateDiagram c6inp).countP (isMismatchWarningForNode "n1") = 1 ∧
    (validateDiagram c6inp).countP (isMismatchNonWarningForNode "n1") = 0 ∧
    (validateDiagram c6inp).countP (isMismatchWarningForEdge "e1") = 1 ∧
    (validateDiagram c6inp).countP (isMismatchNonWarningForEdge "e1") = 0 := by
  have h := C6_version_pin_mismatch_warning c6inp c6n c6e rfl (by decide)
    (by simp [c6inp]) (by decide)
    (Or.inl ⟨"ct", c6ct, 1, 2, rfl, rfl, rfl, by decide, rfl, rfl, rfl, by decide⟩)
    (by decide) (by simp [c6inp]) (by decide)
    ⟨c6n, c6n, "rel.x", c6et, 1, 2, rfl, rfl, Or.inl ⟨rfl, rfl⟩, Or.inl ⟨rfl, rfl⟩,
      rfl, by decide, rfl, rfl, rfl, by decide⟩
  exact ⟨h.1, h.2.1, h.2.2.1, h.2.2.2.1⟩

end EA
